import Mathlib

/-!
Verification development for the switch-simulator packet subsystem
(`hal/packet.c` as found in `include/hal/ethernet.h`), the packet-processor
pipeline, and the ARP cache (`l3/arp.c`).

The C code is shallowly embedded: machine integers (`uint32_t`, `uint16_t`)
become `Nat` with explicit reductions modulo `2^32` exactly where the C
performs modular arithmetic; nullable pointers become `Option`; byte
buffers become `List Nat`.  `malloc`/`realloc` are assumed to succeed
(heap exhaustion is environment nondeterminism outside the program text);
the fresh bytes they return are modelled as zero.  A `memcpy`/`memmove`
that runs past the end of the allocation is undefined behaviour in C; the
model clips such writes at the end of the buffer list.
-/

set_option linter.unusedVariables false
set_option maxRecDepth 40000

namespace SwitchSim

/-- 2^32, the modulus of `uint32_t` arithmetic. -/
def u32 : Nat := 4294967296

/-- `uint32_t` addition. -/
def uadd (a b : Nat) : Nat := (a + b) % u32

/-- `uint32_t` subtraction (two's complement wraparound). -/
def usub (a b : Nat) : Nat := (a + u32 - b % u32) % u32

/-- `MAX_PACKET_SIZE` from `hal/packet.h`. -/
def MAX_PACKET_SIZE : Nat := 9216

/-- `PORT_ID_INVALID` sentinel (spec §3: `INVALID = 0xFFFD`). -/
def PORT_ID_INVALID : Nat := 0xFFFD

/-- Status codes used by the embedded functions (`error_codes.h` kinds). -/
inductive status_t where
  | STATUS_SUCCESS
  | STATUS_ALREADY_INITIALIZED
  | STATUS_NOT_INITIALIZED
  | STATUS_INVALID_PARAMETER
  | STATUS_RESOURCE_EXHAUSTED
  | STATUS_NO_MEMORY
  | STATUS_OUT_OF_BOUNDS
  | STATUS_INVALID_PACKET
  | STATUS_NOT_FOUND
  | STATUS_MEMORY_ALLOCATION_FAILED
  | STATUS_INSUFFICIENT_RESOURCES
  | ERROR_INVALID_PARAMETER
  | ERROR_PACKET_OPERATION_FAILED
  | ARP_STATUS_PENDING
  deriving DecidableEq

export status_t (STATUS_SUCCESS STATUS_ALREADY_INITIALIZED STATUS_NOT_INITIALIZED
  STATUS_INVALID_PARAMETER STATUS_RESOURCE_EXHAUSTED STATUS_NO_MEMORY
  STATUS_OUT_OF_BOUNDS STATUS_INVALID_PACKET STATUS_NOT_FOUND
  STATUS_MEMORY_ALLOCATION_FAILED STATUS_INSUFFICIENT_RESOURCES
  ERROR_INVALID_PARAMETER ERROR_PACKET_OPERATION_FAILED ARP_STATUS_PENDING)

/-- `packet_direction_t` from `hal/packet.h`. -/
inductive packet_direction_t where
  | PACKET_DIR_RX
  | PACKET_DIR_TX
  | PACKET_DIR_INTERNAL
  | PACKET_DIR_INVALID
  deriving DecidableEq

/-- `packet_metadata_t` from `hal/packet.h`; MAC addresses as byte lists. -/
structure packet_metadata_t where
  port : Nat
  direction : packet_direction_t
  vlan : Nat
  priority : Nat
  src_mac : List Nat
  dst_mac : List Nat
  ethertype : Nat
  is_tagged : Bool
  is_dropped : Bool
  timestamp : Nat
  deriving DecidableEq

/-- The all-zero metadata produced by `memset(packet, 0, ...)`. -/
def zero_metadata : packet_metadata_t :=
  { port := 0, direction := packet_direction_t.PACKET_DIR_RX, vlan := 0,
    priority := 0, src_mac := List.replicate 6 0, dst_mac := List.replicate 6 0,
    ethertype := 0, is_tagged := false, is_dropped := false, timestamp := 0 }

/-- Metadata as set by `packet_buffer_alloc` / `packet_reset`
(`port=PORT_ID_INVALID`, `direction=PACKET_DIR_INVALID`, `timestamp=0`,
`priority=0`, `vlan=0`, the rest untouched after the zeroing `memset`). -/
def default_metadata : packet_metadata_t :=
  { zero_metadata with
    port := PORT_ID_INVALID,
    direction := packet_direction_t.PACKET_DIR_INVALID,
    timestamp := 0, priority := 0, vlan := 0 }

/-- `packet_buffer_t` from `hal/packet.h`.  The C `length`/`size` union is a
single field `size`; `data = none` models a NULL data pointer. -/
structure packet_buffer_t where
  data : Option (List Nat)
  size : Nat
  capacity : Nat
  metadata : packet_metadata_t
  user_data : Option Nat
  deriving DecidableEq

/-- `packet_buffer_is_valid`: non-NULL packet, non-NULL data, `size ≤ capacity`. -/
def packet_buffer_is_valid (packet : Option packet_buffer_t) : Bool :=
  match packet with
  | none => false
  | some p => p.data.isSome && !(decide (p.size > p.capacity))

/-- `memcpy`/`memmove` into buffer `d` at byte offset `off`.  A write that
would run past the end of the allocation is undefined behaviour in C; the
model clips it at the end of the buffer, so the buffer length is unchanged. -/
def mem_write (d : List Nat) (off : Nat) (src : List Nat) : List Nat :=
  (d.take off ++ src ++ d.drop (off + src.length)).take d.length

/-- `realloc(d, n)`: the surviving bytes plus fresh (modelled zero) bytes. -/
def mem_realloc (d : List Nat) (n : Nat) : List Nat :=
  d.take n ++ List.replicate (n - d.length) 0

/-- `packet_buffer_alloc` from `packet.c`.  `g_initialized` is passed
explicitly; `NULL` return is `none`.  `malloc` is assumed to succeed and
its uninitialized bytes are modelled as zero. -/
def packet_buffer_alloc (g_initialized : Bool) (size : Nat) : Option packet_buffer_t :=
  if !g_initialized then none
  else if size = 0 then none
  else some
    { data := some (List.replicate size 0),
      size := 0,
      capacity := size,
      metadata := default_metadata,
      user_data := none }

/-- `packet_reset` from `packet.c` (`void`: returns the possibly-updated
packet).  Clears the data bytes, resets `size`, restores default metadata. -/
def packet_reset (g_initialized : Bool) (packet : Option packet_buffer_t) :
    Option packet_buffer_t :=
  if !g_initialized then packet
  else
    match packet with
    | none => none
    | some p =>
      match p.data with
      | none => some p
      | some d =>
        some { p with
          data := some (mem_write d 0 (List.replicate p.capacity 0)),
          size := 0,
          metadata := default_metadata,
          user_data := none }

/-- `packet_append_data` from `packet.c`.  The C `data`/`length` pair is a
single byte list (`none` models a NULL source pointer). -/
def packet_append_data (g_initialized : Bool) (packet : Option packet_buffer_t)
    (src : Option (List Nat)) : status_t × Option packet_buffer_t :=
  if !g_initialized then (ERROR_PACKET_OPERATION_FAILED, packet)
  else
    match packet, src with
    | none, _ => (ERROR_INVALID_PARAMETER, packet)
    | some p, none => (ERROR_INVALID_PARAMETER, packet)
    | some p, some s =>
      match p.data with
      | none => (ERROR_INVALID_PARAMETER, packet)
      | some d =>
        if s.length = 0 then (STATUS_SUCCESS, packet)
        else if uadd p.size s.length > p.capacity then
          (ERROR_PACKET_OPERATION_FAILED, packet)
        else
          (STATUS_SUCCESS, some { p with
            data := some (mem_write d p.size s),
            size := uadd p.size s.length })

/-- `packet_peek_byte` from `packet.c`; the read byte replaces `*byte`. -/
def packet_peek_byte (g_initialized : Bool) (packet : Option packet_buffer_t)
    (offset : Nat) : status_t × Option Nat :=
  if !g_initialized then (ERROR_PACKET_OPERATION_FAILED, none)
  else
    match packet with
    | none => (ERROR_INVALID_PARAMETER, none)
    | some p =>
      match p.data with
      | none => (ERROR_INVALID_PARAMETER, none)
      | some d =>
        if offset ≥ p.size then (ERROR_PACKET_OPERATION_FAILED, none)
        else (STATUS_SUCCESS, some (d.getD offset 0))

/-- `packet_peek_data` from `packet.c`.  The bounds check is the C
expression `offset + length > packet->length` in `uint32_t` arithmetic.
On success the returned list is what `memcpy` puts in `dest`. -/
def packet_peek_data (g_initialized : Bool) (packet : Option packet_buffer_t)
    (offset length : Nat) : status_t × Option (List Nat) :=
  if !g_initialized then (ERROR_PACKET_OPERATION_FAILED, none)
  else
    match packet with
    | none => (ERROR_INVALID_PARAMETER, none)
    | some p =>
      match p.data with
      | none => (ERROR_INVALID_PARAMETER, none)
      | some d =>
        if uadd offset length > p.size then (ERROR_PACKET_OPERATION_FAILED, none)
        else (STATUS_SUCCESS, some ((d.drop offset).take length))

/-- `packet_copy_data` from `packet.c`: early success on zero length, then
delegates every check to `packet_peek_data`. -/
def packet_copy_data (g_initialized : Bool) (packet : Option packet_buffer_t)
    (offset length : Nat) : status_t × Option (List Nat) :=
  if length = 0 then (STATUS_SUCCESS, some [])
  else packet_peek_data g_initialized packet offset length

/-- `packet_buffer_clone` from `packet.c`. -/
def packet_buffer_clone (g_initialized : Bool) (packet : Option packet_buffer_t) :
    Option packet_buffer_t :=
  if !g_initialized then none
  else if !packet_buffer_is_valid packet then none
  else
    match packet with
    | none => none
    | some p =>
      match p.data with
      | none => none
      | some d =>
        match packet_buffer_alloc g_initialized p.capacity with
        | none => none
        | some fresh =>
          match fresh.data with
          | none => none
          | some fd =>
            some { fresh with
              data := some (mem_write fd 0 (d.take p.size)),
              size := p.size,
              metadata := p.metadata,
              user_data := none }

/-- `packet_buffer_resize` from `packet.c`.  Within capacity only `size`
changes; otherwise `realloc` grows the buffer (assumed to succeed) and both
`capacity` and `size` become `new_size`. -/
def packet_buffer_resize (g_initialized : Bool) (packet : Option packet_buffer_t)
    (new_size : Nat) : status_t × Option packet_buffer_t :=
  if !g_initialized then (STATUS_NOT_INITIALIZED, packet)
  else if !packet_buffer_is_valid packet then (STATUS_INVALID_PARAMETER, packet)
  else
    match packet with
    | none => (STATUS_INVALID_PARAMETER, packet)
    | some p =>
      match p.data with
      | none => (STATUS_INVALID_PARAMETER, packet)
      | some d =>
        if new_size = 0 then (STATUS_INVALID_PARAMETER, packet)
        else if new_size ≤ p.capacity then
          (STATUS_SUCCESS, some { p with size := new_size })
        else
          (STATUS_SUCCESS, some { p with
            data := some (mem_realloc d new_size),
            capacity := new_size,
            size := new_size })

/-- `packet_insert` from `packet.c`.  `new_size` is the `uint32_t` sum; when
it exceeds capacity the buffer is resized first (note the resize also sets
`packet->size`, which the subsequent `memmove` length then uses). -/
def packet_insert (g_initialized : Bool) (packet : Option packet_buffer_t)
    (offset : Nat) (src : Option (List Nat)) : status_t × Option packet_buffer_t :=
  if !g_initialized then (STATUS_NOT_INITIALIZED, packet)
  else if !packet_buffer_is_valid packet then (STATUS_INVALID_PARAMETER, packet)
  else
    match packet, src with
    | none, _ => (STATUS_INVALID_PARAMETER, packet)
    | some p, none => (STATUS_INVALID_PARAMETER, packet)
    | some p, some s =>
      match p.data with
      | none => (STATUS_INVALID_PARAMETER, packet)
      | some d =>
        if s.length = 0 then (STATUS_INVALID_PARAMETER, packet)
        else if offset > p.size then (STATUS_OUT_OF_BOUNDS, packet)
        else
          let new_size := uadd p.size s.length
          let resized := new_size > p.capacity
          let d1 := if resized then mem_realloc d new_size else d
          let cap1 := if resized then new_size else p.capacity
          let sz1 := if resized then new_size else p.size
          let d2 := if offset < sz1 then
              mem_write d1 (offset + s.length) ((d1.drop offset).take (sz1 - offset))
            else d1
          let d3 := mem_write d2 offset s
          (STATUS_SUCCESS, some { p with
            data := some d3, capacity := cap1, size := new_size })

/-- `packet_remove` from `packet.c`. -/
def packet_remove (g_initialized : Bool) (packet : Option packet_buffer_t)
    (offset size : Nat) : status_t × Option packet_buffer_t :=
  if !g_initialized then (STATUS_NOT_INITIALIZED, packet)
  else if !packet_buffer_is_valid packet then (STATUS_INVALID_PARAMETER, packet)
  else
    match packet with
    | none => (STATUS_INVALID_PARAMETER, packet)
    | some p =>
      match p.data with
      | none => (STATUS_INVALID_PARAMETER, packet)
      | some d =>
        if size = 0 then (STATUS_INVALID_PARAMETER, packet)
        else if uadd offset size > p.size then (STATUS_OUT_OF_BOUNDS, packet)
        else
          let d1 := if uadd offset size < p.size then
              mem_write d offset ((d.drop (offset + size)).take (p.size - (offset + size)))
            else d
          (STATUS_SUCCESS, some { p with data := some d1, size := usub p.size size })

/-! ## Processor pipeline (`packet.c`: registration, sorting, `packet_process`) -/

/-- `MAX_PACKET_PROCESSORS` from `packet.c`. -/
def MAX_PACKET_PROCESSORS : Nat := 64

/-- `packet_result_t` from `hal/packet.h`. -/
inductive packet_result_t where
  | PACKET_RESULT_FORWARD
  | PACKET_RESULT_DROP
  | PACKET_RESULT_CONSUME
  | PACKET_RESULT_RECIRCULATE
  deriving DecidableEq

export packet_result_t (PACKET_RESULT_FORWARD PACKET_RESULT_DROP
  PACKET_RESULT_CONSUME PACKET_RESULT_RECIRCULATE)

/-- `packet_processor_t` from `packet.c`.  The callback function pointer is
modelled as a numeric identifier (`0` = NULL), `user_data` likewise. -/
structure packet_processor_t where
  callback : Nat
  priority : Nat
  user_data : Nat
  active : Bool
  deriving DecidableEq

/-- An all-zero (cleared) processor slot. -/
def empty_processor : packet_processor_t :=
  { callback := 0, priority := 0, user_data := 0, active := false }

/-- Environment interpreting callback identifiers: given the callback id,
the registered `user_data` and the packet, it yields the processor's result
and the (possibly mutated) packet. -/
def CallbackEnv : Type := Nat → Nat → packet_buffer_t → packet_result_t × packet_buffer_t

/-- Signed 32-bit reinterpretation of a `uint32_t` value. -/
def int32_of (n : Nat) : Int :=
  if n % u32 < 2147483648 then (n % u32 : Int) else (n % u32 : Int) - (u32 : Int)

/-- `compare_processors` from `packet.c`: the C expression
`(int)p1->priority - (int)p2->priority`, i.e. the signed-32-bit
reinterpretation of the wrapped difference of the two `uint32_t`
priorities (two's-complement arithmetic). -/
def compare_processors (a b : packet_processor_t) : Int :=
  int32_of (usub a.priority b.priority)

/-- The ordering `qsort` is given: `a` may precede `b` when the comparator
is non-positive. -/
def proc_le (a b : packet_processor_t) : Prop := compare_processors a b ≤ 0

instance : DecidableRel proc_le := fun a b => Int.decLe _ _

/-- `sort_processors` from `packet.c` sorts the first `g_processor_count`
slots with `qsort`.  `qsort` is an unspecified comparison sort; it is
modelled as insertion sort driven by the same comparator. -/
def sort_processors_list (l : List packet_processor_t) : List packet_processor_t :=
  l.insertionSort proc_le

/-- Sorting only the prefix `[0, count)` of the slot array, as
`qsort(g_processors, g_processor_count, ...)` does. -/
def sort_prefix (l : List packet_processor_t) (count : Nat) : List packet_processor_t :=
  sort_processors_list (l.take count) ++ l.drop count

/-- The mutable globals of `packet.c` (`g_processors`, `g_processor_count`,
`g_initialized`); the slot array has `MAX_PACKET_PROCESSORS` entries. -/
structure packet_subsystem_state where
  g_processors : List packet_processor_t
  g_processor_count : Nat
  g_initialized : Bool
  deriving DecidableEq

/-- Program-start state: zeroed globals. -/
def g_start_state : packet_subsystem_state :=
  { g_processors := List.replicate MAX_PACKET_PROCESSORS empty_processor,
    g_processor_count := 0,
    g_initialized := false }

/-- `packet_init` from `packet.c`. -/
def packet_init (s : packet_subsystem_state) : status_t × packet_subsystem_state :=
  if s.g_initialized then (STATUS_ALREADY_INITIALIZED, s)
  else (STATUS_SUCCESS,
    { g_processors := List.replicate MAX_PACKET_PROCESSORS empty_processor,
      g_processor_count := 0,
      g_initialized := true })

/-- The first inactive slot (the C `for (slot = 0; ...)` search). -/
def find_free_slot (l : List packet_processor_t) : Option Nat :=
  l.findIdx? (fun q => !q.active)

/-- `packet_register_processor` from `packet.c`.  Returns the status, the
new state, and the handle written through `handle_out` (the slot index the
processor was stored at, found before the array is re-sorted).  The
`find_free_slot = none` branch cannot occur while `count < 64` (slots at or
beyond `g_processor_count` are inactive); in C it would write out of
bounds, and the model returns an error instead. -/
def packet_register_processor (s : packet_subsystem_state)
    (callback priority user_data : Nat) :
    status_t × packet_subsystem_state × Option Nat :=
  if !s.g_initialized then (STATUS_NOT_INITIALIZED, s, none)
  else if callback = 0 then (STATUS_INVALID_PARAMETER, s, none)
  else if s.g_processor_count ≥ MAX_PACKET_PROCESSORS then
    (STATUS_RESOURCE_EXHAUSTED, s, none)
  else
    match find_free_slot s.g_processors with
    | none => (STATUS_RESOURCE_EXHAUSTED, s, none)
    | some slot =>
      let procs1 := s.g_processors.set slot
        { callback := callback, priority := priority,
          user_data := user_data, active := true }
      let count1 := if slot ≥ s.g_processor_count then slot + 1
        else s.g_processor_count
      (STATUS_SUCCESS,
        { s with g_processors := sort_prefix procs1 count1,
                 g_processor_count := count1 },
        some slot)

/-- The `while (g_processor_count > 0 && !active) g_processor_count--`
shrink loop of `packet_unregister_processor`. -/
def shrink_count (l : List packet_processor_t) : Nat → Nat
  | 0 => 0
  | n + 1 => if (l.getD n empty_processor).active then n + 1 else shrink_count l n

/-- `packet_unregister_processor` from `packet.c`.  Deactivates the slot at
index `handle` (priority is left in place), shrinks the count over a
trailing run of inactive slots, and re-sorts. -/
def packet_unregister_processor (s : packet_subsystem_state) (handle : Nat) :
    status_t × packet_subsystem_state :=
  if !s.g_initialized then (STATUS_NOT_INITIALIZED, s)
  else if handle ≥ MAX_PACKET_PROCESSORS then (STATUS_INVALID_PARAMETER, s)
  else
    let q := s.g_processors.getD handle empty_processor
    if !q.active then (STATUS_INVALID_PARAMETER, s)
    else
      let procs1 := s.g_processors.set handle
        { q with callback := 0, user_data := 0, active := false }
      let count1 := if handle = usub s.g_processor_count 1 then
          shrink_count procs1 s.g_processor_count
        else s.g_processor_count
      (STATUS_SUCCESS,
        { s with g_processors := sort_prefix procs1 count1,
                 g_processor_count := count1 })

/-- One traversal of the processor snapshot (the `for` loop body of
`packet_process`): invokes each active slot with a non-NULL callback,
threading `result` and the packet, and stops at `DROP`/`CONSUME` (the
`break`) or at `RECIRCULATE` (which the caller handles).  Also returns the
invocation log: the processors invoked, in order, each with the result its
callback returned. -/
def one_pass (env : CallbackEnv) :
    List packet_processor_t → packet_buffer_t → packet_result_t →
    packet_result_t × packet_buffer_t × List (packet_processor_t × packet_result_t)
  | [], p, result => (result, p, [])
  | q :: rest, p, result =>
    if q.active ∧ q.callback ≠ 0 then
      let r := env q.callback q.user_data p
      if r.1 = PACKET_RESULT_CONSUME ∨ r.1 = PACKET_RESULT_DROP then
        (r.1, r.2, [(q, r.1)])
      else if r.1 = PACKET_RESULT_RECIRCULATE then
        (r.1, r.2, [(q, r.1)])
      else
        let rest' := one_pass env rest r.2 r.1
        (rest'.1, rest'.2.1, (q, r.1) :: rest'.2.2)
    else one_pass env rest p result

/-- The recirculation limit: `recursion_depth > 16` drops the packet, so at
most 16 traversals run. -/
def RECURSION_LIMIT : Nat := 16

/-- The recursive core of `packet_process`: `fuel` is the number of
traversals the depth counter still allows (17 minus the `recursion_depth`
value after the increment).  Exhausted fuel is the
`recursion_depth > 16` branch returning `PACKET_RESULT_DROP`.  Returns the
result, the final packet, the concatenated invocation log and the number
of traversals executed. -/
def process_loop (env : CallbackEnv) :
    Nat → List packet_processor_t → packet_buffer_t →
    packet_result_t × packet_buffer_t ×
      List (packet_processor_t × packet_result_t) × Nat
  | 0, _, p => (PACKET_RESULT_DROP, p, [], 0)
  | fuel + 1, procs, p =>
    let pass := one_pass env procs p PACKET_RESULT_FORWARD
    if pass.1 = PACKET_RESULT_RECIRCULATE then
      let rest := process_loop env fuel procs pass.2.1
      (rest.1, rest.2.1, pass.2.2 ++ rest.2.2.1, rest.2.2.2 + 1)
    else (pass.1, pass.2.1, pass.2.2, 1)

/-- `packet_process` from `packet.c`: validity gating, snapshot of the
first `g_processor_count` slots, then the bounded traversal loop. -/
def packet_process (env : CallbackEnv) (s : packet_subsystem_state)
    (packet : Option packet_buffer_t) :
    packet_result_t × Option packet_buffer_t ×
      List (packet_processor_t × packet_result_t) × Nat :=
  if !s.g_initialized then (PACKET_RESULT_DROP, packet, [], 0)
  else if !packet_buffer_is_valid packet then (PACKET_RESULT_DROP, packet, [], 0)
  else
    match packet with
    | none => (PACKET_RESULT_DROP, packet, [], 0)
    | some p =>
      let snapshot := s.g_processors.take s.g_processor_count
      let r := process_loop env RECURSION_LIMIT snapshot p
      (r.1, some r.2.1, r.2.2)

/-! ## ARP cache (`l3/arp.c`)

The hash table is a list of `ARP_CACHE_SIZE` bucket chains (new entries are
pushed at the head of their chain, as in the C).  `get_current_time` is the
static counter of `arp.c` that returns its value and then increments; it is
carried in the table state as `time_counter`.  Transmissions and the
MAC-table coupling are modelled as an effect trace. -/

/-- `ARP_CACHE_SIZE` from `arp.c`. -/
def ARP_CACHE_SIZE : Nat := 1024

/-- `ARP_CACHE_TIMEOUT_SEC` from `arp.c`. -/
def ARP_CACHE_TIMEOUT_SEC : Nat := 1200

/-- `ARP_REQUEST_RETRY_COUNT` from `arp.c`. -/
def ARP_REQUEST_RETRY_COUNT : Nat := 3

/-- `ARP_REQUEST_RETRY_INTERVAL_MS / 1000`, the seconds threshold used by
`arp_age_entries`. -/
def ARP_RETRY_INTERVAL_SEC : Nat := 1

/-- `arp_state_t` from `arp.c`. -/
inductive arp_state_t where
  | ARP_STATE_INCOMPLETE
  | ARP_STATE_REACHABLE
  | ARP_STATE_STALE
  | ARP_STATE_DELAY
  | ARP_STATE_PROBE
  | ARP_STATE_FAILED
  deriving DecidableEq

export arp_state_t (ARP_STATE_INCOMPLETE ARP_STATE_REACHABLE ARP_STATE_STALE
  ARP_STATE_DELAY ARP_STATE_PROBE ARP_STATE_FAILED)

/-- `arp_entry_t` from `arp.c` (the `next` pointer is the chain structure). -/
structure arp_entry_t where
  ip : Nat
  mac : List Nat
  state : arp_state_t
  created_time : Nat
  updated_time : Nat
  port_index : Nat
  retry_count : Nat
  deriving DecidableEq

/-- `arp_stats_t` counters touched by the embedded operations. -/
structure arp_stats_t where
  entries_added : Nat
  entries_removed : Nat
  entries_aged : Nat
  cache_hits : Nat
  cache_flushes : Nat
  requests_sent : Nat
  requests_received : Nat
  replies_sent : Nat
  replies_received : Nat
  invalid_packets : Nat
  current_entries : Nat
  deriving DecidableEq

/-- All-zero statistics. -/
def zero_arp_stats : arp_stats_t :=
  { entries_added := 0, entries_removed := 0, entries_aged := 0,
    cache_hits := 0, cache_flushes := 0, requests_sent := 0,
    requests_received := 0, replies_sent := 0, replies_received := 0,
    invalid_packets := 0, current_entries := 0 }

/-- `arp_table_t` from `arp.c`; `time_counter` is the static counter inside
`get_current_time`. -/
structure arp_table_t where
  hash_table : List (List arp_entry_t)
  entry_count : Nat
  timeout : Nat
  initialized : Bool
  stats : arp_stats_t
  time_counter : Nat
  deriving DecidableEq

/-- Externally visible effects of the ARP code: ARP requests broadcast via
`packet_transmit`, ARP replies sent via `port_send_packet_ext`, and the
`mac_table_add` coupling performed by `arp_add_entry`. -/
inductive arp_effect where
  | ArpRequestSent (target_ip : Nat) (port : Nat)
  | ArpReplySent (target_ip : Nat) (port : Nat)
  | MacTableAdd (mac : List Nat) (port : Nat)
  deriving DecidableEq

/-- `arp_init` from `arp.c` (pool allocation assumed to succeed). -/
def arp_init : arp_table_t :=
  { hash_table := List.replicate ARP_CACHE_SIZE [],
    entry_count := 0,
    timeout := ARP_CACHE_TIMEOUT_SEC,
    initialized := true,
    stats := zero_arp_stats,
    time_counter := 0 }

/-- `hash_ipv4` from `arp.c` (`uint32_t` multiply-xor hash). -/
def hash_ipv4 (ip : Nat) : Nat :=
  let h0 := ip % u32
  let h1 := ((h0 >>> 16) ^^^ h0) * 0x45d9f3b % u32
  let h2 := ((h1 >>> 16) ^^^ h1) * 0x45d9f3b % u32
  (h2 >>> 16) ^^^ h2

/-- The bucket index `hash_ipv4(ip) % ARP_CACHE_SIZE`. -/
def arp_bucket_index (ip : Nat) : Nat := hash_ipv4 ip % ARP_CACHE_SIZE

/-- Walk of one chain comparing IPs (`arp_find_entry`'s loop). -/
def arp_chain_find (ip : Nat) : List arp_entry_t → Option arp_entry_t
  | [] => none
  | e :: rest => if e.ip = ip then some e else arp_chain_find ip rest

/-- `arp_find_entry` from `arp.c`. -/
def arp_find_entry (t : arp_table_t) (ip : Nat) : Option arp_entry_t :=
  arp_chain_find ip (t.hash_table.getD (arp_bucket_index ip) [])

/-- In-place mutation (through the found pointer) of the first chain entry
with the given IP. -/
def arp_chain_update (ip : Nat) (f : arp_entry_t → arp_entry_t) :
    List arp_entry_t → List arp_entry_t
  | [] => []
  | e :: rest => if e.ip = ip then f e :: rest else e :: arp_chain_update ip f rest

/-- All entries with their (bucket, chain) positions, in the bucket-major
scan order of the C loops. -/
def arp_all_positions (buckets : List (List arp_entry_t)) :
    List (Nat × Nat × arp_entry_t) :=
  (buckets.enum.map (fun b => b.2.enum.map (fun je => (b.1, je.1, je.2)))).flatten

/-- One step of the oldest-entry scan: strict `<` keeps the first entry
attaining the minimal `updated_time`, as the C scan does. -/
def arp_oldest_pick (best : Option (Nat × Nat × arp_entry_t))
    (c : Nat × Nat × arp_entry_t) : Option (Nat × Nat × arp_entry_t) :=
  match best with
  | none => some c
  | some b => if c.2.2.updated_time < b.2.2.updated_time then some c else some b

/-- The oldest-entry scan of `arp_allocate_entry`. -/
def arp_find_oldest (buckets : List (List arp_entry_t)) :
    Option (Nat × Nat × arp_entry_t) :=
  (arp_all_positions buckets).foldl arp_oldest_pick none

/-- Unlinking the entry at chain position `j` of bucket `bi`. -/
def arp_remove_at (buckets : List (List arp_entry_t)) (bi j : Nat) :
    List (List arp_entry_t) :=
  buckets.set bi ((buckets.getD bi []).eraseIdx j)

/-- `arp_allocate_entry` from `arp.c`: when the cache is full the oldest
entry is recycled (unlinked, count decremented); otherwise a free pool
slot exists whenever fewer than `ARP_CACHE_SIZE` entries are linked, so
the pool scan is modelled as succeeding.  `none` is the
"no entry available for recycling" failure. -/
def arp_allocate_entry (t : arp_table_t) : Option arp_table_t :=
  if t.entry_count ≥ ARP_CACHE_SIZE then
    match arp_find_oldest t.hash_table with
    | none => none
    | some c =>
      some { t with hash_table := arp_remove_at t.hash_table c.1 c.2.1,
                    entry_count := t.entry_count - 1 }
  else some t

/-- Pushing a fresh entry at the head of its bucket chain
(`entry->next = hash_table[hash]; hash_table[hash] = entry`). -/
def arp_push_entry (t : arp_table_t) (e : arp_entry_t) : arp_table_t :=
  let bi := arp_bucket_index e.ip
  { t with hash_table := t.hash_table.set bi (e :: t.hash_table.getD bi []),
           entry_count := t.entry_count + 1 }

/-- `arp_add_entry` from `arp.c`: update the existing entry in place to
`REACHABLE`, or allocate and push a fresh `REACHABLE` entry; in both cases
the MAC table is updated and `entries_added` incremented. -/
def arp_add_entry (t : arp_table_t) (ip : Nat) (mac : List Nat) (port_index : Nat) :
    status_t × arp_table_t × List arp_effect :=
  if !t.initialized then (STATUS_NOT_INITIALIZED, t, [])
  else
    match arp_find_entry t ip with
    | some _ =>
      let now := t.time_counter
      let bi := arp_bucket_index ip
      let chain' := arp_chain_update ip
        (fun e => { e with mac := mac, port_index := port_index,
                           updated_time := now, state := ARP_STATE_REACHABLE })
        (t.hash_table.getD bi [])
      let t' := { t with hash_table := t.hash_table.set bi chain',
                         time_counter := now + 1 }
      (STATUS_SUCCESS,
        { t' with stats := { t'.stats with entries_added := t'.stats.entries_added + 1 } },
        [arp_effect.MacTableAdd mac port_index])
    | none =>
      match arp_allocate_entry t with
      | none => (STATUS_RESOURCE_EXHAUSTED, t, [])
      | some t1 =>
        let now := t1.time_counter
        let e : arp_entry_t :=
          { ip := ip, mac := mac, state := ARP_STATE_REACHABLE,
            created_time := now, updated_time := now,
            port_index := port_index, retry_count := 0 }
        let t2 := arp_push_entry { t1 with time_counter := now + 1 } e
        (STATUS_SUCCESS,
          { t2 with stats := { t2.stats with entries_added := t2.stats.entries_added + 1 } },
          [arp_effect.MacTableAdd mac port_index])

/-- `arp_lookup` from `arp.c`.  Returns the status, the MAC and port
written through the out-parameters (on `STATUS_SUCCESS`), the updated
table, and the emitted effects.  On a miss the hard-coded
`out_port = 0` placeholder is used, an `INCOMPLETE` entry is inserted, one
ARP request is sent and `requests_sent` incremented. -/
def arp_lookup (t : arp_table_t) (ip : Nat) :
    status_t × Option (List Nat) × Option Nat × arp_table_t × List arp_effect :=
  if !t.initialized then (STATUS_NOT_INITIALIZED, none, none, t, [])
  else
    match arp_find_entry t ip with
    | none =>
      match arp_allocate_entry t with
      | none => (STATUS_RESOURCE_EXHAUSTED, none, none, t, [])
      | some t1 =>
        let out_port := 0
        let now := t1.time_counter
        let e : arp_entry_t :=
          { ip := ip, mac := List.replicate 6 0, state := ARP_STATE_INCOMPLETE,
            created_time := now, updated_time := now,
            port_index := out_port, retry_count := 0 }
        let t2 := arp_push_entry { t1 with time_counter := now + 1 } e
        (ARP_STATUS_PENDING, none, none,
          { t2 with stats := { t2.stats with requests_sent := t2.stats.requests_sent + 1 } },
          [arp_effect.ArpRequestSent ip out_port])
    | some e =>
      if e.state = ARP_STATE_INCOMPLETE then (ARP_STATUS_PENDING, none, none, t, [])
      else if e.state = ARP_STATE_FAILED then (STATUS_NOT_FOUND, none, none, t, [])
      else
        (STATUS_SUCCESS, some e.mac, some e.port_index,
          { t with stats := { t.stats with cache_hits := t.stats.cache_hits + 1 } }, [])

/-- `arp_flush` from `arp.c`: frees every chain and zeroes the count. -/
def arp_flush (t : arp_table_t) : status_t × arp_table_t :=
  if !t.initialized then (STATUS_NOT_INITIALIZED, t)
  else
    (STATUS_SUCCESS,
      { t with hash_table := List.replicate ARP_CACHE_SIZE [],
               entry_count := 0,
               stats := { t.stats with cache_flushes := t.stats.cache_flushes + 1 } })

/-- The per-chain body of `arp_age_entries`: expired `REACHABLE` entries
are unlinked; timed-out `INCOMPLETE` entries either retry (send a request,
bump `retry_count`, refresh `updated_time`) or become `FAILED` after
`ARP_REQUEST_RETRY_COUNT` retries.  Returns the new chain, the number of
entries aged out, and the request effects in scan order. -/
def arp_age_chain (now timeout : Nat) :
    List arp_entry_t → List arp_entry_t × Nat × List arp_effect
  | [] => ([], 0, [])
  | e :: rest =>
    let r := arp_age_chain now timeout rest
    if e.state = ARP_STATE_REACHABLE ∧ usub now e.updated_time > timeout then
      (r.1, r.2.1 + 1, r.2.2)
    else if e.state = ARP_STATE_INCOMPLETE ∧ usub now e.updated_time > ARP_RETRY_INTERVAL_SEC then
      if e.retry_count < ARP_REQUEST_RETRY_COUNT then
        ({ e with retry_count := e.retry_count + 1, updated_time := now } :: r.1,
          r.2.1, arp_effect.ArpRequestSent e.ip e.port_index :: r.2.2)
      else
        ({ e with state := ARP_STATE_FAILED } :: r.1, r.2.1, r.2.2)
    else (e :: r.1, r.2.1, r.2.2)

/-- `arp_age_entries` from `arp.c`, applied bucket by bucket. -/
def arp_age_entries (t : arp_table_t) : status_t × arp_table_t × List arp_effect :=
  if !t.initialized then (STATUS_NOT_INITIALIZED, t, [])
  else
    let now := t.time_counter
    let aged := t.hash_table.map (arp_age_chain now t.timeout)
    let buckets' := aged.map (fun r => r.1)
    let aged_count := (aged.map (fun r => r.2.1)).sum
    let effs := (aged.map (fun r => r.2.2)).flatten
    (STATUS_SUCCESS,
      { t with hash_table := buckets',
               entry_count := t.entry_count - aged_count,
               time_counter := now + 1,
               stats := { t.stats with
                 entries_aged := t.stats.entries_aged + aged_count,
                 requests_sent := t.stats.requests_sent + effs.length } },
      effs)

/-- `sizeof(arp_packet_t)`: the struct is not packed, so alignment padding
(2 bytes before each `ipv4_addr_t`) makes it 32 bytes. -/
def SIZEOF_ARP_PACKET_T : Nat := 32

/-- An ARP frame as `arp_process_packet` reads it: the buffer size, the
ingress port from the packet metadata, and the `arp_packet_t` fields (in
host order: the `ntohs`/byte-order conversions are abstracted away). -/
structure arp_frame_t where
  size : Nat
  port : Nat
  hw_type : Nat
  protocol_type : Nat
  hw_addr_len : Nat
  proto_addr_len : Nat
  operation : Nat
  sender_mac : List Nat
  sender_ip : Nat
  target_mac : List Nat
  target_ip : Nat
  deriving DecidableEq

/-- `arp_process_packet` from `arp.c`: size and field validation, then the
sender is always learned; for a request the reply is gated on the
hard-coded `is_our_ip = false` placeholder, so `arp_send_reply` is never
reached. -/
def arp_process_packet (t : arp_table_t) (f : arp_frame_t) (port_index : Nat) :
    status_t × arp_table_t × List arp_effect :=
  if !t.initialized then (STATUS_NOT_INITIALIZED, t, [])
  else if f.size < SIZEOF_ARP_PACKET_T then
    (STATUS_INVALID_PACKET, { t with stats :=
      { t.stats with invalid_packets := t.stats.invalid_packets + 1 } }, [])
  else if f.hw_type ≠ 1 ∨ f.protocol_type ≠ 0x0800 ∨
      f.hw_addr_len ≠ 6 ∨ f.proto_addr_len ≠ 4 then
    (STATUS_INVALID_PACKET, { t with stats :=
      { t.stats with invalid_packets := t.stats.invalid_packets + 1 } }, [])
  else
    let learned := arp_add_entry t f.sender_ip f.sender_mac port_index
    let t1 := learned.2.1
    let effs1 := learned.2.2
    if f.operation = 1 then
      let t2 := { t1 with stats :=
        { t1.stats with requests_received := t1.stats.requests_received + 1 } }
      let is_our_ip := false
      if is_our_ip then
        (STATUS_SUCCESS,
          { t2 with stats := { t2.stats with replies_sent := t2.stats.replies_sent + 1 } },
          effs1 ++ [arp_effect.ArpReplySent f.sender_ip port_index])
      else (STATUS_SUCCESS, t2, effs1)
    else if f.operation = 2 then
      (STATUS_SUCCESS, { t1 with stats :=
        { t1.stats with replies_received := t1.stats.replies_received + 1 } }, effs1)
    else
      (STATUS_INVALID_PACKET, { t1 with stats :=
        { t1.stats with invalid_packets := t1.stats.invalid_packets + 1 } }, effs1)

/-- `arp_handle_frame` from `arp.c`: delegates to `arp_process_packet` with
the packet's metadata port. -/
def arp_handle_frame (t : arp_table_t) (f : arp_frame_t) :
    status_t × arp_table_t × List arp_effect :=
  arp_process_packet t f f.port

/-! ## Concrete sample values used by witnesses and counterexamples -/

/-- A small valid packet: 4 data bytes, `size = capacity = 4`. -/
def pkt4 : packet_buffer_t :=
  { data := some [10, 11, 12, 13], size := 4, capacity := 4,
    metadata := zero_metadata, user_data := none }

/-- A half-filled valid packet: `size = 2`, `capacity = 4`. -/
def pkt2of4 : packet_buffer_t :=
  { data := some [10, 11, 12, 13], size := 2, capacity := 4,
    metadata := zero_metadata, user_data := none }

/-- A 2 GiB packet (`size = capacity = 2^31`), the input on which the
`uint32_t` size arithmetic of `packet_insert` wraps. -/
def pkt_big : packet_buffer_t :=
  { data := some (List.replicate 2147483648 0), size := 2147483648,
    capacity := 2147483648, metadata := zero_metadata, user_data := none }

/-- A callback environment in which every processor forwards the packet. -/
def env_forward : CallbackEnv := fun _ _ p => (PACKET_RESULT_FORWARD, p)

/-- A callback environment in which every processor recirculates. -/
def env_recirculate : CallbackEnv := fun _ _ p => (PACKET_RESULT_RECIRCULATE, p)

/-- Freshly initialized packet subsystem. -/
def s_init : packet_subsystem_state := (packet_init g_start_state).2

/-- Registration of callback 1 with priority 5 on the fresh subsystem. -/
def s_regA : status_t × packet_subsystem_state × Option Nat :=
  packet_register_processor s_init 1 5 0

/-- Then registration of callback 2 with priority 1. -/
def s_regB : status_t × packet_subsystem_state × Option Nat :=
  packet_register_processor s_regA.2.1 2 1 0

/-- Then unregistration through the handle returned for callback 2. -/
def s_unregB : status_t × packet_subsystem_state :=
  packet_unregister_processor s_regB.2.1 1

/-- Registration of callback 1 with priority 0 on the fresh subsystem. -/
def s_regP0 : status_t × packet_subsystem_state × Option Nat :=
  packet_register_processor s_init 1 0 0

/-- Then registration of callback 2 with priority `2^31 + 1`. -/
def s_regP1 : status_t × packet_subsystem_state × Option Nat :=
  packet_register_processor s_regP0.2.1 2 2147483649 0

/-- A subsystem with one registered always-recirculating processor. -/
def s_one_proc : packet_subsystem_state :=
  (packet_register_processor s_init 7 5 0).2.1

/-- A small sorted snapshot used to witness the ordering theorem. -/
def procs_sorted : List packet_processor_t :=
  [{ callback := 1, priority := 1, user_data := 0, active := true },
   { callback := 2, priority := 5, user_data := 0, active := true }]

/-- `10.0.0.1` as a host-order `uint32_t`. -/
def ip_a : Nat := 167772161

/-- `10.0.0.2` as a host-order `uint32_t`. -/
def ip_b : Nat := 167772162

/-- A sample MAC address. -/
def mac_a : List Nat := [2, 0, 0, 0, 0, 1]

/-- ARP table after `arp_lookup arp_init ip_b` inserted an `INCOMPLETE`
entry for `ip_b` (and sent the first request). -/
def c4_t1 : arp_table_t := (arp_lookup arp_init ip_b).2.2.2.1

/-- One aging pass, keeping only the table. -/
def age1 (t : arp_table_t) : arp_table_t := (arp_age_entries t).2.1

/-- `c4_t1` after eight aging passes: the three retries are exhausted and
the `ip_b` entry has become `FAILED`. -/
def c4_t2 : arp_table_t :=
  age1 (age1 (age1 (age1 (age1 (age1 (age1 (age1 c4_t1)))))))

/-- A well-formed ARP frame: an ARP request from `ip_a`/`mac_a` for
`ip_b`, received on port 3. -/
def c5_frame : arp_frame_t :=
  { size := 32, port := 3, hw_type := 1, protocol_type := 0x0800,
    hw_addr_len := 6, proto_addr_len := 4, operation := 1,
    sender_mac := mac_a, sender_ip := ip_a,
    target_mac := [0, 0, 0, 0, 0, 0], target_ip := ip_b }

/-- All entries of the ARP cache, in bucket-major order. -/
def arp_all_entries (t : arp_table_t) : List arp_entry_t := t.hash_table.flatten

/-- Well-formedness of the ARP table: the bucket array has
`ARP_CACHE_SIZE` buckets and `entry_count` counts the linked entries
(which `arp_init` establishes and every operation maintains). -/
def arp_wf (t : arp_table_t) : Prop :=
  t.hash_table.length = ARP_CACHE_SIZE ∧
  t.entry_count = (arp_all_positions t.hash_table).length

instance (t : arp_table_t) : Decidable (arp_wf t) := by
  unfold arp_wf; infer_instance

/-! ## Theorems -/

/-- A buffer write never changes the buffer length. -/
theorem mem_write_length (d src : List Nat) (off : Nat) :
    (mem_write d off src).length = d.length := by
  unfold mem_write
  simp only [List.length_take, List.length_append, List.length_drop]
  omega

/-- Pointwise description of `mem_write`: inside the buffer, positions in
the written window come from `src` and all others keep their old byte;
positions past the buffer end stay gone (the clip). -/
theorem mem_write_getElem? (d src : List Nat) (off i : Nat) :
    (mem_write d off src)[i]? =
      if i < d.length then
        if off ≤ i ∧ i < off + src.length then src[i - off]? else d[i]?
      else none := by
  unfold mem_write
  rw [List.append_assoc, List.getElem?_take]
  by_cases hi : i < d.length
  · rw [if_pos hi, if_pos hi]
    by_cases hoff : off ≤ d.length
    · have hlt : (d.take off).length = off := by
        simp only [List.length_take]; omega
      by_cases h1 : i < off
      · rw [List.getElem?_append_left (by omega)]
        rw [List.getElem?_take, if_pos h1, if_neg (by omega)]
      · rw [List.getElem?_append_right (by omega), hlt]
        by_cases h2 : i - off < src.length
        · rw [List.getElem?_append_left h2, if_pos ⟨by omega, by omega⟩]
        · rw [List.getElem?_append_right (by omega), List.getElem?_drop,
            if_neg (by omega)]
          congr 1
          omega
    · have hlt : (d.take off).length = d.length := by
        simp only [List.length_take]; omega
      rw [List.getElem?_append_left (by omega)]
      rw [List.getElem?_take, if_pos (by omega), if_neg (by omega)]
  · rw [if_neg hi, if_neg hi]

/-- The core list-level fact behind the insert/remove round trip: shifting
the tail right by `n = |s|` from a buffer position `off ≤ sz`, overwriting
the window with `s`, then shifting back, restores the first `sz` bytes.
`sz1` is the `packet->size` value the insert-shift reads (either the old
size or, after the in-insert resize, the already-updated new size). -/
theorem insert_remove_core (Dbuf s : List Nat) (off sz sz1 : Nat)
    (hoff : off ≤ sz) (hb : sz + s.length ≤ Dbuf.length) (h1 : sz ≤ sz1) :
    (if off < sz then
      mem_write (mem_write
          (if off < sz1 then
            mem_write Dbuf (off + s.length) ((Dbuf.drop off).take (sz1 - off))
          else Dbuf) off s) off
        (((mem_write
          (if off < sz1 then
            mem_write Dbuf (off + s.length) ((Dbuf.drop off).take (sz1 - off))
          else Dbuf) off s).drop (off + s.length)).take (sz - off))
    else
      mem_write
          (if off < sz1 then
            mem_write Dbuf (off + s.length) ((Dbuf.drop off).take (sz1 - off))
          else Dbuf) off s).take sz = Dbuf.take sz := by
  set n := s.length with hn
  set d2 := if off < sz1 then
      mem_write Dbuf (off + n) ((Dbuf.drop off).take (sz1 - off))
    else Dbuf with hd2
  set d3 := mem_write d2 off s with hd3
  have hlen2 : d2.length = Dbuf.length := by
    rw [hd2]; split
    · exact mem_write_length ..
    · rfl
  have hlen3 : d3.length = Dbuf.length := by
    rw [hd3, mem_write_length, hlen2]
  -- (a): below `off` nothing changed
  have ha : ∀ i, i < off → d3[i]? = Dbuf[i]? := by
    intro i hio
    rw [hd3, mem_write_getElem?, if_pos (by omega), if_neg (by omega)]
    rw [hd2]; split
    · rw [mem_write_getElem?, if_pos (by omega), if_neg (by omega)]
    · rfl
  -- (b): the shifted tail holds the old bytes `Dbuf[off..sz)`
  have hbb : ∀ j, j < sz - off → d3[off + n + j]? = Dbuf[off + j]? := by
    intro j hj
    rw [hd3, mem_write_getElem?, if_pos (by omega), if_neg (by omega)]
    rw [hd2]
    by_cases hshift : off < sz1
    · rw [if_pos hshift, mem_write_getElem?, if_pos (by omega)]
      have hT : ((Dbuf.drop off).take (sz1 - off)).length =
          min (sz1 - off) (Dbuf.length - off) := by
        simp [List.length_take, List.length_drop]
      rw [if_pos (by constructor <;> omega)]
      rw [List.getElem?_take, if_pos (by omega), List.getElem?_drop]
      congr 1
      omega
    · -- no shift: `off = sz = sz1`, so `j < sz - off` is impossible
      omega
  by_cases hlt : off < sz
  · rw [if_pos hlt]
    apply List.ext_getElem?
    intro m
    rw [List.getElem?_take, List.getElem?_take]
    by_cases hm : m < sz
    · rw [if_pos hm, if_pos hm]
      have hX : (((d3.drop (off + n)).take (sz - off))).length = sz - off := by
        simp only [List.length_take, List.length_drop, hlen3]
        omega
      rw [mem_write_getElem?, if_pos (by omega)]
      by_cases hmo : off ≤ m
      · rw [if_pos (by rw [hX]; exact ⟨hmo, by omega⟩)]
        rw [List.getElem?_take, if_pos (by omega), List.getElem?_drop]
        have : off + n + (m - off) = off + n + (m - off) := rfl
        rw [hbb (m - off) (by omega)]
        congr 1
        omega
      · rw [if_neg (by omega)]
        exact ha m (by omega)
    · rw [if_neg hm, if_neg hm]
  · rw [if_neg hlt]
    apply List.ext_getElem?
    intro m
    rw [List.getElem?_take, List.getElem?_take]
    by_cases hm : m < sz
    · rw [if_pos hm, if_pos hm]
      exact ha m (by omega)
    · rw [if_neg hm, if_neg hm]

/-- `uint32_t` addition without wraparound is plain addition. -/
theorem uadd_eq_add (a b : Nat) (h : a + b < u32) : uadd a b = a + b := by
  unfold uadd u32 at *
  omega

/-- `uint32_t` subtraction without borrow is plain truncated subtraction. -/
theorem usub_eq_sub (a b : Nat) (hb : b ≤ a) (ha : a < u32) : usub a b = a - b := by
  unfold usub u32 at *
  omega

/-- Inversion of a successful `packet_buffer_alloc`. -/
theorem packet_buffer_alloc_spec (g : Bool) (m : Nat) (q : packet_buffer_t)
    (h : packet_buffer_alloc g m = some q) :
    g = true ∧ m ≠ 0 ∧ q.size = 0 ∧ q.capacity = m ∧
    q.data = some (List.replicate m 0) := by
  unfold packet_buffer_alloc at h
  cases g with
  | false => simp at h
  | true =>
    simp at h
    obtain ⟨hm, h⟩ := h
    subst h
    exact ⟨rfl, hm, rfl, rfl, rfl⟩

/-- Evaluation of `packet_insert` when all guards pass: the buffer is
(possibly) grown, the tail `[offset, size1)` is shifted right by `|s|`
(where `size1` is `packet->size` as the `memmove` sees it — already
updated when the resize ran), `s` is written at `offset`, and `size`
becomes the `uint32_t` sum. -/
theorem packet_insert_eq (p : packet_buffer_t) (d s : List Nat) (offset : Nat)
    (hd : p.data = some d) (hsc : p.size ≤ p.capacity) (hs : s.length ≠ 0)
    (hoff : ¬ offset > p.size) :
    packet_insert true (some p) offset (some s) =
      (STATUS_SUCCESS, some
        { p with
          data := some (mem_write
            (if offset <
                (if uadd p.size s.length > p.capacity then uadd p.size s.length
                 else p.size) then
              mem_write
                (if uadd p.size s.length > p.capacity then
                  mem_realloc d (uadd p.size s.length) else d)
                (offset + s.length)
                (((if uadd p.size s.length > p.capacity then
                    mem_realloc d (uadd p.size s.length) else d).drop offset).take
                  ((if uadd p.size s.length > p.capacity then uadd p.size s.length
                    else p.size) - offset))
            else
              (if uadd p.size s.length > p.capacity then
                mem_realloc d (uadd p.size s.length) else d))
            offset s),
          capacity := if uadd p.size s.length > p.capacity then uadd p.size s.length
            else p.capacity,
          size := uadd p.size s.length }) := by
  have hv : packet_buffer_is_valid (some p) = true := by
    rw [packet_buffer_is_valid, hd]; simp; omega
  unfold packet_insert
  rw [hv]
  simp only [hd, Bool.not_true, Bool.false_eq_true, if_false]
  rw [if_neg (by simp [hs]), if_neg hoff]

/-- Evaluation of `packet_remove` when all guards pass: the tail is
shifted left over the removed window and `size` shrinks by `n`. -/
theorem packet_remove_eq (p : packet_buffer_t) (d : List Nat) (offset n : Nat)
    (hd : p.data = some d) (hsc : p.size ≤ p.capacity) (hn : n ≠ 0)
    (hbound : ¬ uadd offset n > p.size) :
    packet_remove true (some p) offset n =
      (STATUS_SUCCESS, some
        { p with
          data := some (if uadd offset n < p.size then
            mem_write d offset ((d.drop (offset + n)).take (p.size - (offset + n)))
          else d),
          size := usub p.size n }) := by
  have hv : packet_buffer_is_valid (some p) = true := by
    rw [packet_buffer_is_valid, hd]; simp; omega
  unfold packet_remove
  rw [hv]
  simp only [hd, Bool.not_true, Bool.false_eq_true, if_false]
  rw [if_neg hn, if_neg hbound]

/-- Evaluation of `packet_remove` when the bounds check fires. -/
theorem packet_remove_oob_eq (p : packet_buffer_t) (offset n : Nat)
    (hdata : p.data.isSome = true) (hsc : p.size ≤ p.capacity) (hn : n ≠ 0)
    (hbound : uadd offset n > p.size) :
    packet_remove true (some p) offset n = (STATUS_OUT_OF_BOUNDS, some p) := by
  have hv : packet_buffer_is_valid (some p) = true := by
    rw [packet_buffer_is_valid]
    simp [hdata]
    omega
  unfold packet_remove
  rw [hv]
  cases hd : p.data with
  | none => rw [hd] at hdata; simp at hdata
  | some d =>
    simp only [hd, Bool.not_true, Bool.false_eq_true, if_false]
    rw [if_neg hn, if_pos hbound]

/-- C9 counterexample: on a `2^31`-byte packet, inserting `2^31` further
bytes wraps `new_size = size + n` to 0 in `uint32_t`, yet `packet_insert`
reports success; the matching `packet_remove` then fails with
out-of-bounds and the length stays 0 instead of being restored. -/
theorem packet_insert_remove_wraps :
    (packet_insert true (some pkt_big) 0 (some (List.replicate 2147483648 1))).1 =
      STATUS_SUCCESS ∧
    (packet_remove true
      (packet_insert true (some pkt_big) 0 (some (List.replicate 2147483648 1))).2
      0 2147483648).1 = STATUS_OUT_OF_BOUNDS ∧
    Option.map packet_buffer_t.size
      (packet_remove true
        (packet_insert true (some pkt_big) 0 (some (List.replicate 2147483648 1))).2
        0 2147483648).2 = some 0 ∧
    pkt_big.size = 2147483648 := by
  have hwrap : uadd 2147483648 2147483648 = 0 := by norm_num [uadd, u32]
  have hpsz : pkt_big.size = 2147483648 := rfl
  have hbound : uadd 0 2147483648 > (0 : Nat) := by norm_num [uadd, u32]
  have hins := packet_insert_eq pkt_big (List.replicate 2147483648 0)
    (List.replicate 2147483648 1) 0 rfl (by norm_num [pkt_big])
    (by rw [List.length_replicate]; norm_num) (by omega)
  rw [List.length_replicate] at hins
  rw [hpsz] at hins
  rw [hwrap] at hins
  rw [hins]
  refine ⟨rfl, ?_, ?_, hpsz⟩
  · rw [packet_remove_oob_eq]
    · rfl
    · exact Nat.zero_le _
    · norm_num
    · exact hbound
  · rw [packet_remove_oob_eq]
    · rfl
    · rfl
    · exact Nat.zero_le _
    · norm_num
    · exact hbound

/-- C9 (amended): for a well-formed packet (`data` of length `capacity`,
`len ≤ capacity`), an in-range offset and a non-empty byte string `s`,
provided the `uint32_t` sum `len + |s|` does not wrap, `packet_insert`
succeeds and the subsequent `packet_remove` of the same window restores
the original `len` and the original first `len` bytes. -/
theorem packet_insert_remove_roundtrip (p : packet_buffer_t) (d s : List Nat)
    (offset : Nat) (hd : p.data = some d) (hlen : d.length = p.capacity)
    (hsc : p.size ≤ p.capacity) (hoff : offset ≤ p.size) (hs : s ≠ [])
    (hnw : p.size + s.length < u32) :
    (packet_insert true (some p) offset (some s)).1 = STATUS_SUCCESS ∧
    ∃ q, (packet_insert true (some p) offset (some s)).2 = some q ∧
      (packet_remove true (some q) offset s.length).1 = STATUS_SUCCESS ∧
      ∃ r d', (packet_remove true (some q) offset s.length).2 = some r ∧
        r.size = p.size ∧ r.data = some d' ∧ d'.take p.size = d.take p.size := by
  have hn0 : s.length ≠ 0 := fun h => hs (List.length_eq_zero.mp h)
  have huadd : uadd p.size s.length = p.size + s.length := uadd_eq_add _ _ hnw
  have hins := packet_insert_eq p d s offset hd hsc hn0 (by omega)
  rw [huadd] at hins
  -- the buffer and size the in-insert `memmove` works with
  set Dbuf := if p.size + s.length > p.capacity then
      mem_realloc d (p.size + s.length) else d with hDbuf
  set sz1 := if p.size + s.length > p.capacity then p.size + s.length else p.size
    with hsz1
  set cap1 := if p.size + s.length > p.capacity then p.size + s.length
    else p.capacity with hcap1
  set d3 := mem_write
    (if offset < sz1 then
      mem_write Dbuf (offset + s.length) ((Dbuf.drop offset).take (sz1 - offset))
    else Dbuf) offset s with hd3
  have hDlen : Dbuf.length = max d.length (p.size + s.length) ∨
      Dbuf.length = d.length := by
    rw [hDbuf]; split
    · left
      unfold mem_realloc
      simp only [List.length_append, List.length_take, List.length_replicate]
      omega
    · right; rfl
  have hDb : p.size + s.length ≤ Dbuf.length ∧ p.size ≤ Dbuf.length := by
    rw [hDbuf]; split
    · unfold mem_realloc
      simp only [List.length_append, List.length_take, List.length_replicate]
      omega
    · rename_i hng
      constructor <;> omega
  have hszcap : p.size + s.length ≤ cap1 := by
    rw [hcap1]; split <;> omega
  have hd3len : d3.length = Dbuf.length := by
    rw [hd3]; rw [mem_write_length]
    split
    · rw [mem_write_length]
    · rfl
  rw [hins]
  refine ⟨rfl, _, rfl, ?_, ?_⟩
  · -- remove status: reuse the evaluation lemma
    have hrem := packet_remove_eq
      { p with data := some d3, capacity := cap1, size := p.size + s.length }
      d3 offset s.length rfl (by simpa using hszcap) hn0
      (by simp only
          rw [uadd_eq_add offset s.length (by omega)]
          omega)
    rw [hrem]
  · have hrem := packet_remove_eq
      { p with data := some d3, capacity := cap1, size := p.size + s.length }
      d3 offset s.length rfl (by simpa using hszcap) hn0
      (by simp only
          rw [uadd_eq_add offset s.length (by omega)]
          omega)
    rw [hrem]
    refine ⟨_, _, rfl, ?_, rfl, ?_⟩
    · simp only
      rw [usub_eq_sub (p.size + s.length) s.length (by omega) hnw]
      omega
    · -- the surviving bytes: reduce to the core list lemma
      simp only
      rw [uadd_eq_add offset s.length (by omega)]
      have hcond : (offset + s.length < p.size + s.length) ↔ (offset < p.size) := by
        omega
      have harith : p.size + s.length - (offset + s.length) = p.size - offset := by
        omega
      simp only [hcond, harith]
      have hcore := insert_remove_core Dbuf s offset p.size sz1 hoff hDb.1
        (by rw [hsz1]; split <;> omega)
      rw [hd3]
      by_cases hlt : offset < p.size
      · rw [if_pos hlt]
        rw [if_pos hlt] at hcore
        rw [hcore]
        -- `Dbuf.take p.size = d.take p.size`
        rw [hDbuf]
        split
        · unfold mem_realloc
          rw [List.take_append_of_le_length (by simp [List.length_take]; omega)]
          rw [List.take_take]
          congr 1
          omega
        · rfl
      · rw [if_neg hlt]
        rw [if_neg hlt] at hcore
        rw [hcore]
        rw [hDbuf]
        split
        · unfold mem_realloc
          rw [List.take_append_of_le_length (by simp [List.length_take]; omega)]
          rw [List.take_take]
          congr 1
          omega
        · rfl

/-- Witness for C9 at a concrete packet: insert two bytes at offset 1 of a
4-byte packet, then remove them. -/
theorem packet_insert_remove_roundtrip_witness :
    (packet_insert true (some pkt4) 1 (some [7, 8])).1 = STATUS_SUCCESS ∧
    ∃ q, (packet_insert true (some pkt4) 1 (some [7, 8])).2 = some q ∧
      (packet_remove true (some q) 1 [7, 8].length).1 = STATUS_SUCCESS ∧
      ∃ r d', (packet_remove true (some q) 1 [7, 8].length).2 = some r ∧
        r.size = pkt4.size ∧ r.data = some d' ∧
        d'.take pkt4.size = [10, 11, 12, 13].take pkt4.size :=
  packet_insert_remove_roundtrip pkt4 [10, 11, 12, 13] [7, 8] 1 rfl (by decide)
    (by decide) (by decide) (by decide) (by decide)

/-- C10: `packet_process` on an uninitialized subsystem or an invalid
packet (NULL packet, NULL data, or `size > capacity`) returns
`PACKET_RESULT_DROP` and invokes no processor (empty invocation log); the
model function is total on all inputs. -/
theorem packet_process_drops_invalid (env : CallbackEnv)
    (s : packet_subsystem_state) (packet : Option packet_buffer_t)
    (h : s.g_initialized = false ∨ packet_buffer_is_valid packet = false) :
    (packet_process env s packet).1 = PACKET_RESULT_DROP ∧
    (packet_process env s packet).2.2.1 = [] := by
  unfold packet_process
  rcases h with h | h
  · simp [h]
  · cases hg : s.g_initialized <;> simp [h, hg]

/-- Witness for C10 at the uninitialized start state and a NULL packet. -/
theorem packet_process_drops_invalid_witness :
    (packet_process env_forward g_start_state none).1 = PACKET_RESULT_DROP ∧
    (packet_process env_forward g_start_state none).2.2.1 = [] :=
  packet_process_drops_invalid env_forward g_start_state none (Or.inl rfl)

/-- The traversal loop executes at most `fuel` traversals. -/
theorem process_loop_passes_le (env : CallbackEnv) :
    ∀ (fuel : Nat) (procs : List packet_processor_t) (p : packet_buffer_t),
      (process_loop env fuel procs p).2.2.2 ≤ fuel := by
  intro fuel
  induction fuel with
  | zero => intro procs p; simp [process_loop]
  | succ n ih =>
    intro procs p
    unfold process_loop
    by_cases h : (one_pass env procs p PACKET_RESULT_FORWARD).1 = PACKET_RESULT_RECIRCULATE
    · simp only [h, if_true]
      simpa using ih procs _
    · simp [h]

/-- If every callback recirculates and the snapshot has an invocable
processor, a single pass ends with `RECIRCULATE`. -/
theorem one_pass_recirc (env : CallbackEnv)
    (hall : ∀ cb ud p, (env cb ud p).1 = PACKET_RESULT_RECIRCULATE) :
    ∀ (procs : List packet_processor_t) (p : packet_buffer_t) (r0 : packet_result_t),
      (∃ q ∈ procs, q.active = true ∧ q.callback ≠ 0) →
      (one_pass env procs p r0).1 = PACKET_RESULT_RECIRCULATE := by
  intro procs
  induction procs with
  | nil => intro p r0 h; simp at h
  | cons q rest ih =>
    intro p r0 h
    unfold one_pass
    by_cases hq : q.active = true ∧ q.callback ≠ 0
    · rw [if_pos hq]
      rw [if_neg (by simp [hall])]
      rw [if_pos (hall ..)]
      exact hall ..
    · rw [if_neg hq]
      obtain ⟨w, hw, hwp⟩ := h
      rcases List.mem_cons.mp hw with rfl | hw'
      · exact absurd hwp hq
      · exact ih p r0 ⟨w, hw', hwp⟩

/-- Under an always-recirculating processor set the loop exhausts its fuel
and drops the packet. -/
theorem process_loop_recirc_drop (env : CallbackEnv)
    (hall : ∀ cb ud p, (env cb ud p).1 = PACKET_RESULT_RECIRCULATE)
    (procs : List packet_processor_t)
    (hex : ∃ q ∈ procs, q.active = true ∧ q.callback ≠ 0) :
    ∀ (fuel : Nat) (p : packet_buffer_t),
      (process_loop env fuel procs p).1 = PACKET_RESULT_DROP := by
  intro fuel
  induction fuel with
  | zero => intro p; simp [process_loop]
  | succ n ih =>
    intro p
    unfold process_loop
    rw [if_pos (one_pass_recirc env hall procs p PACKET_RESULT_FORWARD hex)]
    exact ih _

/-- C2: `packet_process` always terminates and executes at most
`RECURSION_LIMIT = 16` traversals; with processors that always return
`RECIRCULATE` (at least one active and invocable), the depth guard fires
and the packet is dropped. -/
theorem packet_process_recirculation_bounded (env : CallbackEnv)
    (s : packet_subsystem_state) (packet : Option packet_buffer_t) :
    (packet_process env s packet).2.2.2 ≤ RECURSION_LIMIT ∧
    ((∀ cb ud p, (env cb ud p).1 = PACKET_RESULT_RECIRCULATE) →
      s.g_initialized = true →
      packet_buffer_is_valid packet = true →
      (∃ q ∈ s.g_processors.take s.g_processor_count,
        q.active = true ∧ q.callback ≠ 0) →
      (packet_process env s packet).1 = PACKET_RESULT_DROP) := by
  constructor
  · unfold packet_process
    split
    · simp
    split
    · simp
    split
    · simp
    · exact process_loop_passes_le ..
  · intro hall hinit hval hex
    unfold packet_process
    rw [hinit]
    rw [hval]
    simp only [Bool.not_true, Bool.false_eq_true, if_false]
    cases packet with
    | none => rw [packet_buffer_is_valid] at hval
    | some p => exact process_loop_recirc_drop env hall _ hex RECURSION_LIMIT p

/-- Witness for C2: one registered always-recirculating processor. -/
theorem packet_process_recirculation_bounded_witness :
    (packet_process env_recirculate s_one_proc (some pkt4)).2.2.2 ≤ RECURSION_LIMIT ∧
    (packet_process env_recirculate s_one_proc (some pkt4)).1 = PACKET_RESULT_DROP :=
  ⟨(packet_process_recirculation_bounded env_recirculate s_one_proc (some pkt4)).1,
   (packet_process_recirculation_bounded env_recirculate s_one_proc (some pkt4)).2
     (fun _ _ _ => rfl) (by decide) (by decide) (by decide)⟩

/-- C7: the handle returned by `packet_register_processor` is the slot
index found before `sort_processors()` permutes the array, so it does not
stably identify the processor.  Registering callback 1 (priority 5) then
callback 2 (priority 1) returns handles 0 and 1, but after the sort slot 1
holds callback 1; `packet_unregister_processor(1)` then reports success
while deactivating callback 1 and leaving callback 2 — the processor the
handle was issued for — active. -/
theorem unregister_deactivates_wrong_processor :
    s_regA.2.2 = some 0 ∧ s_regB.2.2 = some 1 ∧
    (s_regB.2.1.g_processors.getD 1 empty_processor).callback = 1 ∧
    s_unregB.1 = STATUS_SUCCESS ∧
    ((s_unregB.2.g_processors.filter (fun q => q.active)).map
      (fun q => q.callback)) = [2] := by decide

/-- C6 counterexample: the `qsort` comparator is
`(int)p1->priority - (int)p2->priority`, whose `int` wraparound misorders
priorities that differ by more than `2^31`.  With active processors of
priorities 0 and `2^31 + 1`, a traversal invokes the `2^31 + 1` processor
strictly before the priority-0 one. -/
theorem processors_invoked_out_of_priority_order :
    ((packet_process env_forward s_regP1.2.1 (some pkt4)).2.2.1.map
      (fun x => x.1.priority)) = [2147483649, 0] ∧
    ((packet_process env_forward s_regP1.2.1 (some pkt4)).2.2.1.map
      (fun x => x.1.active)) = [true, true] ∧
    (0 : Nat) < 2147483649 := by decide

/-- For priorities below `2^31` the C comparator agrees with the numeric
order of the priorities. -/
theorem proc_le_iff (a b : packet_processor_t)
    (ha : a.priority < 2147483648) (hb : b.priority < 2147483648) :
    proc_le a b ↔ a.priority ≤ b.priority := by
  unfold proc_le compare_processors int32_of usub u32
  split <;> rename_i h <;> omega

/-- Inserting a small-priority element into a small-priority
`proc_le`-pairwise list keeps it pairwise. -/
theorem pairwise_orderedInsert_small (x : packet_processor_t)
    (l : List packet_processor_t) (hx : x.priority < 2147483648)
    (hl : ∀ q ∈ l, q.priority < 2147483648) (h : l.Pairwise proc_le) :
    (List.orderedInsert proc_le x l).Pairwise proc_le := by
  induction l with
  | nil => simp [List.orderedInsert]
  | cons y t ih =>
    rw [List.pairwise_cons] at h
    have hy : y.priority < 2147483648 := hl y (by simp)
    have ht : ∀ q ∈ t, q.priority < 2147483648 := fun q hq => hl q (by simp [hq])
    by_cases hr : proc_le x y
    · rw [List.orderedInsert, if_pos hr]
      rw [List.pairwise_cons]
      refine ⟨?_, List.pairwise_cons.mpr h⟩
      intro b hb
      rcases List.mem_cons.mp hb with rfl | hb'
      · exact hr
      · have hbsmall := ht b hb'
        rw [proc_le_iff x b hx hbsmall]
        have h1 := (proc_le_iff x y hx hy).mp hr
        have h2 := (proc_le_iff y b hy hbsmall).mp (h.1 b hb')
        omega
    · rw [List.orderedInsert, if_neg hr]
      rw [List.pairwise_cons]
      refine ⟨?_, ih ht h.2⟩
      intro b hb
      rw [List.mem_orderedInsert] at hb
      rcases hb with heq | hb'
      · have hbx : b.priority = x.priority := by rw [heq]
        rw [proc_le_iff y b hy (by rw [hbx]; exact hx)]
        rw [proc_le_iff x y hx hy] at hr
        omega
      · exact h.1 b hb'

/-- `sort_processors` really sorts, provided no priority reaches `2^31`
(so the comparator is a total preorder on the elements involved). -/
theorem pairwise_sort_processors_small (l : List packet_processor_t)
    (hl : ∀ q ∈ l, q.priority < 2147483648) :
    (sort_processors_list l).Pairwise proc_le := by
  unfold sort_processors_list
  induction l with
  | nil => simp
  | cons x t ih =>
    rw [List.insertionSort]
    refine pairwise_orderedInsert_small x _ (hl x (by simp)) ?_
      (ih fun q hq => hl q (by simp [hq]))
    intro q hq
    exact hl q (by simp [(List.perm_insertionSort proc_le t).mem_iff.mp hq])

/-- The invocation log of a single traversal is a subsequence of the
snapshot: processors run in array order, none twice. -/
theorem one_pass_log_sublist (env : CallbackEnv) :
    ∀ (procs : List packet_processor_t) (p : packet_buffer_t)
      (r0 : packet_result_t),
      ((one_pass env procs p r0).2.2.map (fun x => x.1)).Sublist procs := by
  intro procs
  induction procs with
  | nil => intro p r0; simp [one_pass]
  | cons q rest ih =>
    intro p r0
    unfold one_pass
    by_cases hq : q.active = true ∧ q.callback ≠ 0
    · rw [if_pos hq]
      dsimp only
      split
      · simpa using List.Sublist.cons₂ q (List.nil_sublist rest)
      split
      · simpa using List.Sublist.cons₂ q (List.nil_sublist rest)
      · simpa using List.Sublist.cons₂ q (ih ..)
    · rw [if_neg hq]
      exact (ih ..).cons q

/-- In a single traversal every invocation except possibly the last
returned `FORWARD`: a `DROP`/`CONSUME` (or `RECIRCULATE`) ends the pass. -/
theorem one_pass_log_front_forward (env : CallbackEnv) :
    ∀ (procs : List packet_processor_t) (p : packet_buffer_t)
      (r0 : packet_result_t) (x : packet_processor_t × packet_result_t),
      x ∈ ((one_pass env procs p r0).2.2).dropLast →
      x.2 = PACKET_RESULT_FORWARD := by
  intro procs
  induction procs with
  | nil => intro p r0 x hx; simp [one_pass] at hx
  | cons q rest ih =>
    intro p r0 x hx
    unfold one_pass at hx
    by_cases hq : q.active = true ∧ q.callback ≠ 0
    · rw [if_pos hq] at hx
      dsimp only at hx
      split at hx
      · simp at hx
      split at hx
      · simp at hx
      · rename_i h1 h2
        have hF : (env q.callback q.user_data p).1 = PACKET_RESULT_FORWARD := by
          cases hr : (env q.callback q.user_data p).1 <;> simp_all
        simp only at hx
        cases hlog : (one_pass env rest (env q.callback q.user_data p).2
            (env q.callback q.user_data p).1).2.2 with
        | nil => rw [hlog] at hx; simp at hx
        | cons a as =>
          rw [hlog] at hx
          rw [List.dropLast_cons₂] at hx
          rcases List.mem_cons.mp hx with rfl | hx'
          · exact hF
          · exact ih _ _ x (by rw [hlog]; exact hx')
    · rw [if_neg hq] at hx
      exact ih _ _ x hx

/-- C6 (amended): for a single traversal over a snapshot that is pairwise
ordered by the `qsort` comparator and whose priorities all stay below
`2^31` (so the `int`-cast comparator agrees with numeric order): the
processors invoked form a subsequence of the snapshot; their priorities
are non-decreasing along the invocation order (so for priorities
`p1 < p2` the `p1` processor runs strictly first); every invocation
except possibly the last returned `FORWARD` (a `DROP`/`CONSUME`
short-circuits the traversal); and the sort run by
registration/unregistration does establish that pairwise order whenever
all priorities are below `2^31`.  Stability of ties is not guaranteed:
`qsort` is unstable. -/
theorem processor_priority_order (env : CallbackEnv)
    (procs : List packet_processor_t) (p : packet_buffer_t)
    (hsort : procs.Pairwise proc_le)
    (hsmall : ∀ q ∈ procs, q.priority < 2147483648) :
    ((one_pass env procs p PACKET_RESULT_FORWARD).2.2.map
      (fun x => x.1)).Sublist procs ∧
    ((one_pass env procs p PACKET_RESULT_FORWARD).2.2.map
      (fun x => x.1.priority)).Pairwise (· ≤ ·) ∧
    (∀ x ∈ ((one_pass env procs p PACKET_RESULT_FORWARD).2.2).dropLast,
      x.2 = PACKET_RESULT_FORWARD) ∧
    (∀ l : List packet_processor_t, (∀ q ∈ l, q.priority < 2147483648) →
      (sort_processors_list l).Pairwise proc_le) := by
  have hsub := one_pass_log_sublist env procs p PACKET_RESULT_FORWARD
  refine ⟨hsub, ?_, one_pass_log_front_forward env procs p PACKET_RESULT_FORWARD,
    pairwise_sort_processors_small⟩
  have hpw : ((one_pass env procs p PACKET_RESULT_FORWARD).2.2.map
      (fun x => x.1)).Pairwise proc_le := hsort.sublist hsub
  have hmem : ∀ q ∈ (one_pass env procs p PACKET_RESULT_FORWARD).2.2.map
      (fun x => x.1), q.priority < 2147483648 :=
    fun q hq => hsmall q (hsub.subset hq)
  have hpw' : ((one_pass env procs p PACKET_RESULT_FORWARD).2.2.map
      (fun x => x.1)).Pairwise (fun a b => a.priority ≤ b.priority) := by
    refine hpw.imp_of_mem ?_
    intro a b hha hhb hab
    exact (proc_le_iff a b (hmem a hha) (hmem b hhb)).mp hab
  have hmm2 : (one_pass env procs p PACKET_RESULT_FORWARD).2.2.map
      (fun x => x.1.priority) =
      ((one_pass env procs p PACKET_RESULT_FORWARD).2.2.map
        (fun x => x.1)).map (fun q => q.priority) := by
    simp [List.map_map]
  rw [hmm2]
  exact List.pairwise_map.mpr hpw'

/-- Witness for C6 at a concrete sorted two-processor snapshot. -/
theorem processor_priority_order_witness :
    ((one_pass env_forward procs_sorted pkt4 PACKET_RESULT_FORWARD).2.2.map
      (fun x => x.1)).Sublist procs_sorted ∧
    ((one_pass env_forward procs_sorted pkt4 PACKET_RESULT_FORWARD).2.2.map
      (fun x => x.1.priority)).Pairwise (· ≤ ·) ∧
    (∀ x ∈ ((one_pass env_forward procs_sorted pkt4 PACKET_RESULT_FORWARD).2.2).dropLast,
      x.2 = PACKET_RESULT_FORWARD) ∧
    (∀ l : List packet_processor_t, (∀ q ∈ l, q.priority < 2147483648) →
      (sort_processors_list l).Pairwise proc_le) :=
  processor_priority_order env_forward procs_sorted pkt4 (by decide) (by decide)

/-- C1 counterexample: `packet_buffer_alloc` does not enforce
`size ≤ MAX_PACKET_SIZE`: allocating 9217 bytes succeeds and yields
`capacity = 9217 > 9216`, contradicting the claimed invariant
`capacity ≤ MAX_PACKET_SIZE` and the claimed allocate precondition. -/
theorem packet_buffer_alloc_exceeds_max :
    (packet_buffer_alloc true 9217).isSome = true ∧
    Option.map packet_buffer_t.capacity (packet_buffer_alloc true 9217) = some 9217 ∧
    MAX_PACKET_SIZE < 9217 := by
  refine ⟨rfl, rfl, by norm_num [MAX_PACKET_SIZE]⟩

/-- C1 (amended): allocation requires an initialized subsystem and
`size > 0`, every allocation result satisfies `len ≤ capacity`, and every
packet-buffer operation preserves `len ≤ capacity` (for `packet_remove`
provided the `uint32_t` sum `offset + n` does not wrap).  No
`MAX_PACKET_SIZE` bound on `capacity` is enforced anywhere. -/
theorem packet_buffer_len_le_capacity (g : Bool) (p : packet_buffer_t)
    (hp : p.size ≤ p.capacity) (n offset : Nat) (src : Option (List Nat))
    (hsz : p.size < u32) (hnw : offset + n < u32) :
    (packet_buffer_alloc g 0 = none ∧ packet_buffer_alloc false n = none) ∧
    (∀ m q, packet_buffer_alloc g m = some q → q.size ≤ q.capacity) ∧
    (∀ q, packet_reset g (some p) = some q → q.size ≤ q.capacity) ∧
    (∀ q, (packet_append_data g (some p) src).2 = some q → q.size ≤ q.capacity) ∧
    (∀ q, packet_buffer_clone g (some p) = some q → q.size ≤ q.capacity) ∧
    (∀ q, (packet_buffer_resize g (some p) n).2 = some q → q.size ≤ q.capacity) ∧
    (∀ q, (packet_insert g (some p) offset src).2 = some q → q.size ≤ q.capacity) ∧
    (∀ q, (packet_remove g (some p) offset n).2 = some q → q.size ≤ q.capacity) := by
  constructor
  · constructor
    · cases g <;> simp [packet_buffer_alloc]
    · simp [packet_buffer_alloc]
  refine ⟨?_, ?_, ?_, ?_, ?_, ?_, ?_⟩
  · intro m q hq
    unfold packet_buffer_alloc at hq
    split at hq
    · exact absurd hq (by simp)
    split at hq
    · exact absurd hq (by simp)
    · cases hq; simp
  · intro q hq
    unfold packet_reset at hq
    split at hq
    · cases hq; exact hp
    · cases hd : p.data with
      | none => simp [hd] at hq; cases hq; exact hp
      | some d => simp [hd] at hq; cases hq; simp
  · intro q hq
    unfold packet_append_data at hq
    split at hq
    · cases hq; exact hp
    cases src with
    | none => simp at hq; cases hq; exact hp
    | some s =>
      cases hd : p.data with
      | none => simp [hd] at hq; cases hq; exact hp
      | some d =>
        simp only [hd] at hq
        split at hq
        · cases hq; exact hp
        · split at hq
          · cases hq; exact hp
          · rename_i hle
            simp at hq; cases hq; simp; omega
  · intro q hq
    unfold packet_buffer_clone at hq
    split at hq
    · exact absurd hq (by simp)
    split at hq
    · exact absurd hq (by simp)
    rename_i hg hval
    cases hd : p.data with
    | none =>
      rw [packet_buffer_is_valid] at hval
      simp [hd] at hval
    | some d =>
      simp only [hd] at hq
      cases halloc : packet_buffer_alloc g p.capacity with
      | none => rw [halloc] at hq; simp at hq
      | some fresh =>
        rw [halloc] at hq
        obtain ⟨-, -, -, hcap, hdata⟩ := packet_buffer_alloc_spec g p.capacity fresh halloc
        simp [hdata] at hq
        subst hq
        simp only [hcap]
        exact hp
  · intro q hq
    unfold packet_buffer_resize at hq
    split at hq
    · cases hq; exact hp
    split at hq
    · cases hq; exact hp
    cases hd : p.data with
    | none => simp [hd] at hq; cases hq; exact hp
    | some d =>
      simp only [hd] at hq
      split at hq
      · cases hq; exact hp
      split at hq
      · rename_i hle; simp at hq; cases hq; simpa using hle
      · simp at hq; cases hq; simp
  · intro q hq
    unfold packet_insert at hq
    split at hq
    · cases hq; exact hp
    split at hq
    · cases hq; exact hp
    cases src with
    | none => simp at hq; cases hq; exact hp
    | some s =>
      cases hd : p.data with
      | none => simp [hd] at hq; cases hq; exact hp
      | some d =>
        simp only [hd] at hq
        split at hq
        · cases hq; exact hp
        split at hq
        · cases hq; exact hp
        · simp at hq
          cases hq
          by_cases hgrow : uadd p.size s.length > p.capacity <;> simp [hgrow] <;> omega
  · intro q hq
    unfold packet_remove at hq
    split at hq
    · cases hq; exact hp
    split at hq
    · cases hq; exact hp
    cases hd : p.data with
    | none => simp [hd] at hq; cases hq; exact hp
    | some d =>
      simp only [hd] at hq
      split at hq
      · cases hq; exact hp
      split at hq
      · cases hq; exact hp
      · rename_i hbound
        simp at hq; cases hq
        rw [uadd_eq_add offset n hnw] at hbound
        have hn : n ≤ p.size := by omega
        simp only
        rw [usub_eq_sub p.size n hn hsz]
        omega

/-- Witness for C1 at a concrete packet, discharging all hypotheses. -/
theorem packet_buffer_len_le_capacity_witness :
    (packet_buffer_alloc true 0 = none ∧ packet_buffer_alloc false 1 = none) ∧
    (∀ m q, packet_buffer_alloc true m = some q → q.size ≤ q.capacity) ∧
    (∀ q, packet_reset true (some pkt2of4) = some q → q.size ≤ q.capacity) ∧
    (∀ q, (packet_append_data true (some pkt2of4) (some [1])).2 = some q →
      q.size ≤ q.capacity) ∧
    (∀ q, packet_buffer_clone true (some pkt2of4) = some q → q.size ≤ q.capacity) ∧
    (∀ q, (packet_buffer_resize true (some pkt2of4) 1).2 = some q →
      q.size ≤ q.capacity) ∧
    (∀ q, (packet_insert true (some pkt2of4) 0 (some [1])).2 = some q →
      q.size ≤ q.capacity) ∧
    (∀ q, (packet_remove true (some pkt2of4) 0 1).2 = some q →
      q.size ≤ q.capacity) :=
  packet_buffer_len_le_capacity true pkt2of4 (by decide) 1 0 (some [1])
    (by decide) (by decide)

/-- C8 counterexample: the bounds check of `packet_peek_data` is
`offset + length > len` in wrapping `uint32_t` arithmetic, so with
`offset = 2^32 - 1` and `length = 2` the sum wraps to 1 and the read is
accepted although `offset + length > len` mathematically (the C `memcpy`
then reads out of bounds). -/
theorem packet_peek_data_wraps :
    (packet_peek_data true (some pkt4) 4294967295 2).1 = STATUS_SUCCESS ∧
    pkt4.size < 4294967295 + 2 := by
  exact ⟨by decide, by norm_num [pkt4]⟩

/-- C8 (amended): for an initialized subsystem and a packet with non-NULL
data, `packet_peek_byte` fails exactly when `offset ≥ len`;
`packet_peek_data` fails with the out-of-bounds status exactly when the
`uint32_t` sum `offset + length` exceeds `len` (so a zero-length
`packet_peek_data` fails whenever `offset > len`, and a wrapped sum is
accepted); `packet_copy_data` returns success unconditionally for
`length = 0` and otherwise delegates to `packet_peek_data`. -/
theorem packet_read_bounds (p : packet_buffer_t) (d : List Nat)
    (offset length : Nat) (hd : p.data = some d) :
    ((packet_peek_byte true (some p) offset).1 = ERROR_PACKET_OPERATION_FAILED ↔
      offset ≥ p.size) ∧
    ((packet_peek_byte true (some p) offset).1 = STATUS_SUCCESS ↔ offset < p.size) ∧
    ((packet_peek_data true (some p) offset length).1 = ERROR_PACKET_OPERATION_FAILED ↔
      uadd offset length > p.size) ∧
    ((packet_peek_data true (some p) offset length).1 = STATUS_SUCCESS ↔
      uadd offset length ≤ p.size) ∧
    ((packet_copy_data true (some p) offset 0).1 = STATUS_SUCCESS) ∧
    (length ≠ 0 →
      packet_copy_data true (some p) offset length =
        packet_peek_data true (some p) offset length) := by
  refine ⟨?_, ?_, ?_, ?_, ?_, ?_⟩
  · unfold packet_peek_byte
    simp [hd]
    split <;> rename_i hcmp <;> simp [hcmp] <;> omega
  · unfold packet_peek_byte
    simp [hd]
    split <;> rename_i hcmp <;> simp [hcmp] <;> omega
  · unfold packet_peek_data
    simp [hd]
    split <;> rename_i hcmp <;> simp [hcmp] <;> omega
  · unfold packet_peek_data
    simp [hd]
    split <;> rename_i hcmp <;> simp [hcmp] <;> omega
  · simp [packet_copy_data]
  · intro hlen
    simp [packet_copy_data, hlen]

/-- Witness for C8 at a concrete packet and offsets. -/
theorem packet_read_bounds_witness :
    ((packet_peek_byte true (some pkt4) 1).1 = ERROR_PACKET_OPERATION_FAILED ↔
      1 ≥ pkt4.size) ∧
    ((packet_peek_byte true (some pkt4) 1).1 = STATUS_SUCCESS ↔ 1 < pkt4.size) ∧
    ((packet_peek_data true (some pkt4) 1 2).1 = ERROR_PACKET_OPERATION_FAILED ↔
      uadd 1 2 > pkt4.size) ∧
    ((packet_peek_data true (some pkt4) 1 2).1 = STATUS_SUCCESS ↔
      uadd 1 2 ≤ pkt4.size) ∧
    ((packet_copy_data true (some pkt4) 1 0).1 = STATUS_SUCCESS) ∧
    (2 ≠ 0 →
      packet_copy_data true (some pkt4) 1 2 = packet_peek_data true (some pkt4) 1 2) :=
  packet_read_bounds pkt4 [10, 11, 12, 13] 1 2 rfl

/-- An element of some bucket is an element of the flattened cache. -/
theorem mem_flatten_of_mem_getD {e : arp_entry_t} {l : List (List arp_entry_t)}
    {i : Nat} (h : e ∈ l.getD i []) : e ∈ l.flatten := by
  by_cases hi : i < l.length
  · rw [List.getD_eq_getElem?_getD, List.getElem?_eq_getElem hi] at h
    exact List.mem_flatten.mpr ⟨l[i], List.getElem_mem hi, h⟩
  · rw [List.getD_eq_getElem?_getD, List.getElem?_eq_none (by omega)] at h
    simp at h

/-- An element of the cache after one bucket was replaced is in the new
chain or was already in the cache. -/
theorem mem_flatten_set {e : arp_entry_t} {l : List (List arp_entry_t)}
    {i : Nat} {c : List arp_entry_t} (h : e ∈ (l.set i c).flatten) :
    e ∈ c ∨ e ∈ l.flatten := by
  obtain ⟨chain, hchain, he⟩ := List.mem_flatten.mp h
  rcases List.mem_or_eq_of_mem_set hchain with hold | rfl
  · exact Or.inr (List.mem_flatten.mpr ⟨chain, hold, he⟩)
  · exact Or.inl he

/-- Inversion of the in-place chain update. -/
theorem arp_chain_update_mem {e' : arp_entry_t} (ip : Nat)
    (f : arp_entry_t → arp_entry_t) :
    ∀ {c : List arp_entry_t}, e' ∈ arp_chain_update ip f c →
      e' ∈ c ∨ ∃ e ∈ c, e.ip = ip ∧ e' = f e := by
  intro c
  induction c with
  | nil => intro h; simp [arp_chain_update] at h
  | cons x t ih =>
    intro h
    unfold arp_chain_update at h
    by_cases hx : x.ip = ip
    · rw [if_pos hx] at h
      rcases List.mem_cons.mp h with rfl | ht
      · exact Or.inr ⟨x, by simp, hx, rfl⟩
      · exact Or.inl (List.mem_cons.mpr (Or.inr ht))
    · rw [if_neg hx] at h
      rcases List.mem_cons.mp h with rfl | ht
      · exact Or.inl (by simp)
      · rcases ih ht with h1 | ⟨e, he, hei, hef⟩
        · exact Or.inl (List.mem_cons.mpr (Or.inr h1))
        · exact Or.inr ⟨e, List.mem_cons.mpr (Or.inr he), hei, hef⟩

/-- `arp_allocate_entry` only ever unlinks entries. -/
theorem arp_allocate_entry_mem {t t1 : arp_table_t}
    (h : arp_allocate_entry t = some t1) :
    ∀ e ∈ arp_all_entries t1, e ∈ arp_all_entries t := by
  intro e he
  unfold arp_allocate_entry at h
  split at h
  · cases hold : arp_find_oldest t.hash_table with
    | none => rw [hold] at h; simp at h
    | some c =>
      rw [hold] at h
      injection h with h
      subst h
      unfold arp_all_entries at he ⊢
      unfold arp_remove_at at he
      simp only at he
      rcases mem_flatten_set he with hin | hin
      · exact mem_flatten_of_mem_getD
          ((List.eraseIdx_sublist _ c.2.1).subset hin)
      · exact hin
  · injection h with h
    subst h
    exact he

/-- `arp_allocate_entry` preserves the bucket count, the clock and the
statistics. -/
theorem arp_allocate_entry_shape {t t1 : arp_table_t}
    (h : arp_allocate_entry t = some t1) :
    t1.hash_table.length = t.hash_table.length ∧
    t1.time_counter = t.time_counter ∧ t1.stats = t.stats ∧
    t1.timeout = t.timeout ∧ t1.initialized = t.initialized := by
  unfold arp_allocate_entry at h
  split at h
  · cases hold : arp_find_oldest t.hash_table with
    | none => rw [hold] at h; simp at h
    | some c =>
      rw [hold] at h
      injection h with h
      subst h
      refine ⟨?_, rfl, rfl, rfl, rfl⟩
      unfold arp_remove_at
      simp
  · injection h with h
    subst h
    exact ⟨rfl, rfl, rfl, rfl, rfl⟩

/-- The effect list of `arp_add_entry` is at most the MAC-table coupling. -/
theorem arp_add_entry_effects (t : arp_table_t) (ip : Nat) (mac : List Nat)
    (port_index : Nat) :
    (arp_add_entry t ip mac port_index).2.2 = [] ∨
    (arp_add_entry t ip mac port_index).2.2 =
      [arp_effect.MacTableAdd mac port_index] := by
  unfold arp_add_entry
  split
  · exact Or.inl rfl
  split
  · exact Or.inr rfl
  · split
    · exact Or.inl rfl
    · exact Or.inr rfl

/-- `arp_add_entry` never touches the reply counter. -/
theorem arp_add_entry_replies_sent (t : arp_table_t) (ip : Nat)
    (mac : List Nat) (port_index : Nat) :
    ((arp_add_entry t ip mac port_index).2.1).stats.replies_sent =
      t.stats.replies_sent := by
  unfold arp_add_entry
  split
  · rfl
  split
  · simp
  · split
    · rfl
    · rename_i t1 halloc
      simp only
      rw [(arp_allocate_entry_shape halloc).2.2.1]
      rfl

/-- C5: the ARP reply path is dead code — `arp_process_packet` hard-codes
`is_our_ip = false`, so no call ever emits an ARP reply or increments
`replies_sent`, even for a perfectly valid request addressed to us; the
sender-learning half does work, as the concrete valid request `c5_frame`
shows (its sender becomes a `REACHABLE` entry with the sender's MAC, yet
the effect trace carries no `ArpReplySent`). -/
theorem arp_reply_never_sent (t : arp_table_t) (f : arp_frame_t)
    (port_index : Nat) :
    (((arp_process_packet t f port_index).2.1).stats.replies_sent =
      t.stats.replies_sent ∧
     ∀ tip pp, arp_effect.ArpReplySent tip pp ∉
      (arp_process_packet t f port_index).2.2) ∧
    ((arp_handle_frame arp_init c5_frame).1 = STATUS_SUCCESS ∧
     Option.map arp_entry_t.state
       (arp_find_entry (arp_handle_frame arp_init c5_frame).2.1 ip_a) =
       some ARP_STATE_REACHABLE ∧
     Option.map arp_entry_t.mac
       (arp_find_entry (arp_handle_frame arp_init c5_frame).2.1 ip_a) =
       some mac_a ∧
     (∀ tip pp, arp_effect.ArpReplySent tip pp ∉
       (arp_handle_frame arp_init c5_frame).2.2)) := by
  constructor
  · constructor
    · unfold arp_process_packet
      have hrep := arp_add_entry_replies_sent t f.sender_ip f.sender_mac port_index
      split
      · rfl
      split
      · rfl
      split
      · rfl
      · split
        · simp [hrep]
        split
        · simp [hrep]
        · simp [hrep]
    · intro tip pp
      unfold arp_process_packet
      have heff := arp_add_entry_effects t f.sender_ip f.sender_mac port_index
      split
      · simp
      split
      · simp
      split
      · simp
      · split
        · rcases heff with h | h <;> simp [h]
        split
        · rcases heff with h | h <;> simp [h]
        · rcases heff with h | h <;> simp [h]
  · have hconc : (arp_handle_frame arp_init c5_frame).2.2 =
        [arp_effect.MacTableAdd mac_a 3] := by decide
    refine ⟨by decide, by decide, by decide, ?_⟩
    intro tip pp hmem
    rw [hconc] at hmem
    simp at hmem

/-- Inversion of the per-chain aging step: every surviving entry descends
from an entry with the same IP, either unchanged in state or moved
`INCOMPLETE → FAILED`. -/
theorem arp_age_chain_mem (now timeout : Nat) :
    ∀ {c : List arp_entry_t} {e' : arp_entry_t},
      e' ∈ (arp_age_chain now timeout c).1 →
      ∃ e ∈ c, e'.ip = e.ip ∧
        (e'.state = e.state ∨
          (e.state = ARP_STATE_INCOMPLETE ∧ e'.state = ARP_STATE_FAILED)) := by
  intro c
  induction c with
  | nil => intro e' h; simp [arp_age_chain] at h
  | cons x t ih =>
    intro e' h
    unfold arp_age_chain at h
    dsimp only at h
    split at h
    · obtain ⟨e, he, hp⟩ := ih h
      exact ⟨e, List.mem_cons.mpr (Or.inr he), hp⟩
    · split at h
      · rename_i hnotr hinc
        split at h
        · rcases List.mem_cons.mp h with rfl | ht
          · exact ⟨x, by simp, rfl, Or.inl rfl⟩
          · obtain ⟨e, he, hp⟩ := ih ht
            exact ⟨e, List.mem_cons.mpr (Or.inr he), hp⟩
        · rcases List.mem_cons.mp h with rfl | ht
          · exact ⟨x, by simp, rfl, Or.inr ⟨hinc.1, rfl⟩⟩
          · obtain ⟨e, he, hp⟩ := ih ht
            exact ⟨e, List.mem_cons.mpr (Or.inr he), hp⟩
      · rcases List.mem_cons.mp h with rfl | ht
        · exact ⟨e', by simp, rfl, Or.inl rfl⟩
        · obtain ⟨e, he, hp⟩ := ih ht
          exact ⟨e, List.mem_cons.mpr (Or.inr he), hp⟩

/-- C4 counterexample: after `arp_lookup` creates an `INCOMPLETE` entry
for `ip_b` and eight aging passes exhaust the three retries, the entry is
`FAILED`; a subsequent `arp_add_entry` (as performed for every received
ARP frame naming that sender) moves it directly to `REACHABLE` — a
transition the claimed relation forbids. -/
theorem arp_failed_entry_becomes_reachable :
    Option.map arp_entry_t.state (arp_find_entry c4_t2 ip_b) =
      some ARP_STATE_FAILED ∧
    Option.map arp_entry_t.state
      (arp_find_entry (arp_add_entry c4_t2 ip_b mac_a 3).2.1 ip_b) =
      some ARP_STATE_REACHABLE := by decide

/-- C4 (amended): the ARP cache operations change the state of existing
entries only along: any state → `REACHABLE` on `arp_add_entry`
(in particular `FAILED → REACHABLE`), and `INCOMPLETE → FAILED` on aging
after the retries are exhausted; `arp_lookup` creates only `INCOMPLETE`
entries and mutates no existing state; aging and allocation-recycling may
remove entries; `arp_flush` removes every entry (it does not move entries
to `INCOMPLETE`); `STALE`, `DELAY` and `PROBE` are never entered. -/
theorem arp_state_transition_relation (t : arp_table_t) (ip : Nat)
    (mac : List Nat) (port_index : Nat) :
    (∀ e' ∈ arp_all_entries (arp_add_entry t ip mac port_index).2.1,
      e'.state = ARP_STATE_REACHABLE ∨
      ∃ e ∈ arp_all_entries t, e'.ip = e.ip ∧ e'.state = e.state) ∧
    (∀ e' ∈ arp_all_entries (arp_lookup t ip).2.2.2.1,
      e'.state = ARP_STATE_INCOMPLETE ∨
      ∃ e ∈ arp_all_entries t, e'.ip = e.ip ∧ e'.state = e.state) ∧
    (∀ e' ∈ arp_all_entries (arp_age_entries t).2.1,
      ∃ e ∈ arp_all_entries t, e'.ip = e.ip ∧
        (e'.state = e.state ∨
          (e.state = ARP_STATE_INCOMPLETE ∧ e'.state = ARP_STATE_FAILED))) ∧
    (t.initialized = true → arp_all_entries (arp_flush t).2 = []) := by
  refine ⟨?_, ?_, ?_, ?_⟩
  · intro e' he'
    unfold arp_add_entry at he'
    split at he'
    · exact Or.inr ⟨e', he', rfl, rfl⟩
    split at he'
    · -- in-place update of the found entry
      dsimp only [arp_all_entries] at he'
      rcases mem_flatten_set he' with hin | hin
      · rcases arp_chain_update_mem _ _ hin with hold | ⟨e, he, _, rfl⟩
        · exact Or.inr ⟨e', mem_flatten_of_mem_getD hold, rfl, rfl⟩
        · exact Or.inl rfl
      · exact Or.inr ⟨e', hin, rfl, rfl⟩
    · split at he'
      · exact Or.inr ⟨e', he', rfl, rfl⟩
      · rename_i t1 halloc
        dsimp only [arp_all_entries, arp_push_entry] at he'
        rcases mem_flatten_set he' with hin | hin
        · rcases List.mem_cons.mp hin with rfl | hold
          · exact Or.inl rfl
          · exact Or.inr ⟨e', arp_allocate_entry_mem halloc e'
              (mem_flatten_of_mem_getD hold), rfl, rfl⟩
        · exact Or.inr ⟨e', arp_allocate_entry_mem halloc e' hin, rfl, rfl⟩
  · intro e' he'
    unfold arp_lookup at he'
    split at he'
    · exact Or.inr ⟨e', he', rfl, rfl⟩
    split at he'
    · split at he'
      · exact Or.inr ⟨e', he', rfl, rfl⟩
      · rename_i t1 halloc
        dsimp only [arp_all_entries, arp_push_entry] at he'
        rcases mem_flatten_set he' with hin | hin
        · rcases List.mem_cons.mp hin with rfl | hold
          · exact Or.inl rfl
          · exact Or.inr ⟨e', arp_allocate_entry_mem halloc e'
              (mem_flatten_of_mem_getD hold), rfl, rfl⟩
        · exact Or.inr ⟨e', arp_allocate_entry_mem halloc e' hin, rfl, rfl⟩
    · split at he'
      · exact Or.inr ⟨e', he', rfl, rfl⟩
      split at he'
      · exact Or.inr ⟨e', he', rfl, rfl⟩
      · exact Or.inr ⟨e', he', rfl, rfl⟩
  · intro e' he'
    unfold arp_age_entries at he'
    split at he'
    · exact ⟨e', he', rfl, Or.inl rfl⟩
    · dsimp only [arp_all_entries] at he'
      rw [List.map_map] at he'
      obtain ⟨c', hc', hec⟩ := List.mem_flatten.mp he'
      obtain ⟨b, hb, rfl⟩ := List.mem_map.mp hc'
      obtain ⟨e, he, hp⟩ := arp_age_chain_mem _ _ hec
      exact ⟨e, List.mem_flatten.mpr ⟨b, hb, he⟩, hp⟩
  · intro hinit
    unfold arp_flush
    rw [hinit]
    simp [arp_all_entries, List.flatten_eq_nil_iff]

/-- Witness for C4's flush clause at the freshly initialized table. -/
theorem arp_state_transition_relation_witness :
    arp_all_entries (arp_flush arp_init).2 = [] :=
  (arp_state_transition_relation arp_init ip_a mac_a 3).2.2.2 rfl

/-- Folding `arp_oldest_pick` never discards a `some` accumulator. -/
theorem foldl_arp_oldest_pick_isSome (l : List (Nat × Nat × arp_entry_t)) :
    ∀ acc : Option (Nat × Nat × arp_entry_t), acc.isSome = true →
      (l.foldl arp_oldest_pick acc).isSome = true := by
  induction l with
  | nil => intro acc h; simpa using h
  | cons x xs ih =>
    intro acc h
    rw [List.foldl_cons]
    apply ih
    cases acc with
    | none => rfl
    | some b =>
      unfold arp_oldest_pick
      dsimp only
      split <;> rfl

/-- A nonempty cache always yields an oldest entry. -/
theorem arp_find_oldest_isSome (buckets : List (List arp_entry_t))
    (h : arp_all_positions buckets ≠ []) :
    (arp_find_oldest buckets).isSome = true := by
  unfold arp_find_oldest
  cases hp : arp_all_positions buckets with
  | nil => exact absurd hp h
  | cons c cs =>
    rw [List.foldl_cons]
    exact foldl_arp_oldest_pick_isSome cs (arp_oldest_pick none c) rfl

/-- Under the linked-count invariant, `arp_allocate_entry` never fails:
either a pool slot is free, or the full cache has an oldest entry to
recycle. -/
theorem arp_allocate_entry_isSome (t : arp_table_t) (hwf : arp_wf t) :
    (arp_allocate_entry t).isSome = true := by
  have hwf' := hwf
  unfold arp_wf at hwf'
  obtain ⟨hlen, hcount⟩ := hwf'
  unfold arp_allocate_entry
  split
  · rename_i hfull
    have hne : arp_all_positions t.hash_table ≠ [] := by
      intro h0
      rw [hcount, h0] at hfull
      simp [ARP_CACHE_SIZE] at hfull
    have hs := arp_find_oldest_isSome t.hash_table hne
    cases hold : arp_find_oldest t.hash_table with
    | none => rw [hold] at hs; simp at hs
    | some c => rfl
  · rfl

/-- Updating only the statistics does not change what `arp_find_entry`
finds. -/
theorem arp_find_entry_set_stats (t : arp_table_t) (s : arp_stats_t) (ip : Nat) :
    arp_find_entry { t with stats := s } ip = arp_find_entry t ip := rfl

/-- A freshly pushed entry is found at the head of its bucket chain. -/
theorem arp_find_entry_push (t : arp_table_t) (e : arp_entry_t) (ip : Nat)
    (hip : e.ip = ip) (hlen : t.hash_table.length = ARP_CACHE_SIZE) :
    arp_find_entry (arp_push_entry t e) ip = some e := by
  subst hip
  have hpos : 0 < ARP_CACHE_SIZE := by norm_num [ARP_CACHE_SIZE]
  have hbi : arp_bucket_index e.ip < t.hash_table.length := by
    rw [hlen]
    exact Nat.mod_lt _ hpos
  unfold arp_find_entry arp_push_entry
  dsimp only
  rw [List.getD_eq_getElem?_getD, List.getElem?_set_self hbi]
  simp [arp_chain_find]

/-- Evaluation of `arp_lookup` on a miss with a successful allocation. -/
theorem arp_lookup_miss_eq (t t1 : arp_table_t) (ip : Nat)
    (hinit : t.initialized = true)
    (hfind : arp_find_entry t ip = none)
    (halloc : arp_allocate_entry t = some t1) :
    arp_lookup t ip =
      (ARP_STATUS_PENDING, none, none,
        { arp_push_entry { t1 with time_counter := t1.time_counter + 1 }
            { ip := ip, mac := List.replicate 6 0, state := ARP_STATE_INCOMPLETE,
              created_time := t1.time_counter, updated_time := t1.time_counter,
              port_index := 0, retry_count := 0 } with
          stats := { t1.stats with requests_sent := t1.stats.requests_sent + 1 } },
        [arp_effect.ArpRequestSent ip 0]) := by
  unfold arp_lookup
  rw [hinit]
  simp only [Bool.not_true, Bool.false_eq_true, if_false]
  rw [hfind, halloc]
  rfl

/-- C3: the `arp_lookup` contract.  For an initialized, well-formed table:
a `REACHABLE` (or any non-`INCOMPLETE`, non-`FAILED`) hit returns
`STATUS_SUCCESS` with the entry's MAC and port and bumps `cache_hits`; an
`INCOMPLETE` hit returns `ARP_STATUS_PENDING`; a `FAILED` hit returns
`STATUS_NOT_FOUND`; a miss returns `ARP_STATUS_PENDING`, inserts an
`INCOMPLETE` placeholder entry for the IP, sends exactly one ARP request
and increments `requests_sent`. -/
theorem arp_lookup_spec (t : arp_table_t) (ip : Nat)
    (hinit : t.initialized = true) (hwf : arp_wf t) :
    (∀ e, arp_find_entry t ip = some e → e.state = ARP_STATE_REACHABLE →
      arp_lookup t ip = (STATUS_SUCCESS, some e.mac, some e.port_index,
        { t with stats := { t.stats with cache_hits := t.stats.cache_hits + 1 } },
        [])) ∧
    (∀ e, arp_find_entry t ip = some e → e.state = ARP_STATE_INCOMPLETE →
      arp_lookup t ip = (ARP_STATUS_PENDING, none, none, t, [])) ∧
    (∀ e, arp_find_entry t ip = some e → e.state = ARP_STATE_FAILED →
      arp_lookup t ip = (STATUS_NOT_FOUND, none, none, t, [])) ∧
    (arp_find_entry t ip = none →
      (arp_lookup t ip).1 = ARP_STATUS_PENDING ∧
      arp_find_entry (arp_lookup t ip).2.2.2.1 ip =
        some { ip := ip, mac := List.replicate 6 0, state := ARP_STATE_INCOMPLETE,
               created_time := t.time_counter, updated_time := t.time_counter,
               port_index := 0, retry_count := 0 } ∧
      ((arp_lookup t ip).2.2.2.1).stats.requests_sent =
        t.stats.requests_sent + 1 ∧
      (arp_lookup t ip).2.2.2.2 = [arp_effect.ArpRequestSent ip 0]) := by
  have hwf' := hwf
  unfold arp_wf at hwf'
  obtain ⟨hlen, hcount⟩ := hwf'
  refine ⟨?_, ?_, ?_, ?_⟩
  · intro e hfind hst
    unfold arp_lookup
    rw [hinit]
    simp only [Bool.not_true, Bool.false_eq_true, if_false]
    rw [hfind]
    dsimp only
    rw [hst]
    rw [if_neg (by decide), if_neg (by decide)]
  · intro e hfind hst
    unfold arp_lookup
    rw [hinit]
    simp only [Bool.not_true, Bool.false_eq_true, if_false]
    rw [hfind]
    dsimp only
    rw [if_pos hst]
  · intro e hfind hst
    unfold arp_lookup
    rw [hinit]
    simp only [Bool.not_true, Bool.false_eq_true, if_false]
    rw [hfind]
    dsimp only
    rw [if_neg (by rw [hst]; decide), if_pos hst]
  · intro hfind
    have hs := arp_allocate_entry_isSome t hwf
    cases halloc : arp_allocate_entry t with
    | none => rw [halloc] at hs; simp at hs
    | some t1 =>
      obtain ⟨hlen1, htime, hstats, htmo, hinit1⟩ := arp_allocate_entry_shape halloc
      rw [arp_lookup_miss_eq t t1 ip hinit hfind halloc]
      refine ⟨rfl, ?_, ?_, rfl⟩
      · rw [← htime]
        rw [arp_find_entry_set_stats]
        exact arp_find_entry_push _ _ ip rfl (by rw [hlen1]; exact hlen)
      · dsimp only
        rw [hstats]

/-- Witness for C3's miss clause at the freshly initialized table. -/
theorem arp_lookup_spec_witness :
    (arp_lookup arp_init ip_a).1 = ARP_STATUS_PENDING ∧
    arp_find_entry (arp_lookup arp_init ip_a).2.2.2.1 ip_a =
      some { ip := ip_a, mac := List.replicate 6 0, state := ARP_STATE_INCOMPLETE,
             created_time := arp_init.time_counter,
             updated_time := arp_init.time_counter,
             port_index := 0, retry_count := 0 } ∧
    ((arp_lookup arp_init ip_a).2.2.2.1).stats.requests_sent =
      arp_init.stats.requests_sent + 1 ∧
    (arp_lookup arp_init ip_a).2.2.2.2 = [arp_effect.ArpRequestSent ip_a 0] :=
  (arp_lookup_spec arp_init ip_a rfl (by decide)).2.2.2 (by decide)

end SwitchSim
